import Mathlib

/-!
Verification development for the receiver core of wdt (src/Receiver.cpp).

The definitions below are a shallow embedding of the C++ source.  Pure
helpers (readAtLeast, readAtMost, the effective-buffer-size computation)
become Lean functions; the per-connection protocol loop of
Receiver::receiveOne becomes an explicit step function on a connection
state; the session lifecycle (start / finish / transferAsync / runForever)
and the progress tracker become sequential state machines.  Machine
integers are modelled as Nat / Int, with an explicit mod 2^64 where size_t
wrap-around matters.  The socket is modelled as a list of events: a chunk
of bytes delivered by a successful read, or a read error; the empty list
behaves as end of file.  Classes that are not part of src/ (TransferStats,
Protocol constants, Protocol::decode, ServerSocket) are modelled from the
specification and marked as such.
-/

namespace Wdt

/-- Modelled from the spec: error codes (ErrorCodes.h is not in src/).  The
spec lists a closed set; the numeric values are representatives only and no
theorem depends on them beyond distinctness. -/
abbrev ErrorCode := Nat

def OK : ErrorCode := 0

def ERROR : ErrorCode := 1

def CONN_ERROR : ErrorCode := 2

def PROTOCOL_ERROR : ErrorCode := 3

def FILE_WRITE_ERROR : ErrorCode := 4

def MEMORY_ALLOCATION_ERROR : ErrorCode := 5

/-- Modelled from the spec: command opcode bytes (Protocol.h is not in
src/).  Every frame starts with one of these magic bytes; the values are
representatives, the theorems use only their distinctness. -/
def EXIT_CMD : Nat := 1

def DONE_CMD : Nat := 2

def FILE_CMD : Nat := 3

/-- Modelled from the spec: per-worker TransferStats counters plus the two
error slots (the TransferStats class is not in src/; the fields and the
mutators used by Receiver.cpp are taken from section 3 of the spec).
Counters are int64 values, modelled as Int. -/
structure TransferStats where
  headerBytes : Int
  dataBytes : Int
  effectiveHeaderBytes : Int
  effectiveDataBytes : Int
  numBlocks : Int
  failedAttempts : Int
  errorCode : ErrorCode
  remoteErrorCode : ErrorCode
deriving DecidableEq

def statsInit : TransferStats :=
  ⟨0, 0, 0, 0, 0, 0, OK, OK⟩

def addHeaderBytes (s : TransferStats) (n : Int) : TransferStats :=
  { s with headerBytes := s.headerBytes + n }

def addDataBytes (s : TransferStats) (n : Int) : TransferStats :=
  { s with dataBytes := s.dataBytes + n }

/-- addEffectiveBytes(header, data) adds to the two effective counters. -/
def addEffectiveBytes (s : TransferStats) (h d : Int) : TransferStats :=
  { s with effectiveHeaderBytes := s.effectiveHeaderBytes + h,
           effectiveDataBytes := s.effectiveDataBytes + d }

def incrNumBlocks (s : TransferStats) : TransferStats :=
  { s with numBlocks := s.numBlocks + 1 }

def incrFailedAttempts (s : TransferStats) : TransferStats :=
  { s with failedAttempts := s.failedAttempts + 1 }

def setErrorCode (s : TransferStats) (e : ErrorCode) : TransferStats :=
  { s with errorCode := e }

def setRemoteErrorCode (s : TransferStats) (e : ErrorCode) : TransferStats :=
  { s with remoteErrorCode := e }

/-- getTotalBytes, read by the progress tracker. -/
def getTotalBytes (s : TransferStats) : Int :=
  s.headerBytes + s.dataBytes

/-- Socket input model: each event is what one successful kernel read can
deliver (a nonempty chunk of bytes) or a read error (-e is the value a
failed read reports, e positive).  The empty event list behaves as end of
file: read returns 0. -/
inductive SockEv where
  | chunk (bs : List Nat)
  | err (e : Nat)
deriving DecidableEq

/-- Embedding of readAtLeast (Receiver.cpp lines 28-56).  Given that len
bytes are already present in the window, keep reading until at least
atLeast total bytes are present, never exceeding max.  Returns the new
total, the newly read bytes, and the rest of the stream.  The C function
is declared returning size_t but returns the negative n on an error with
nothing accumulated; the caller stores the result back into a ssize_t, so
the value round-trips and is modelled directly as Int.  The C loop calls
read(buf+len, max-len); when max <= len that read requests 0 bytes and
returns 0, which the loop treats as EOF, so that case returns len directly
without consuming the stream.  When a chunk is larger than the remaining
room the read returns exactly the room, the window is full at max, and the
next loop iteration necessarily exits the same way, so that case returns
max with the chunk remainder pushed back. -/
def readAtLeast : List SockEv → Nat → Nat → Nat → Int × List Nat × List SockEv
  | s, max, atLeast, len =>
    if atLeast ≤ len then ((len : Int), [], s)
    else if max ≤ len then ((len : Int), [], s)
    else
      match s with
      | [] => ((len : Int), [], [])
      | SockEv.err e :: rest =>
          (if 0 < len then (len : Int) else -(e : Int), [], rest)
      | SockEv.chunk bs :: rest =>
          if bs.length = 0 then ((len : Int), [], rest)
          else if bs.length ≤ max - len then
            match readAtLeast rest max atLeast (len + bs.length) with
            | (r, got, s1) => (r, bs ++ got, s1)
          else
            ((max : Int), bs.take (max - len),
              SockEv.chunk (bs.drop (max - len)) :: rest)

/-- Embedding of readAtMost (Receiver.cpp lines 58-72): a single read of up
to min(atMost, max) bytes; 0 for EOF, negative for error.  As with
readAtLeast, the negative error round-trips through the unsigned return
type back into the int64 at the call site, so the value is modelled as
Int. -/
def readAtMost (s : List SockEv) (max atMost : Nat) : Int × List Nat × List SockEv :=
  let target := if atMost < max then atMost else max
  match s with
  | [] => (0, [], [])
  | SockEv.err e :: rest => (-(e : Int), [], rest)
  | SockEv.chunk bs :: rest =>
      let t := bs.take target
      ((t.length : Int), t,
        if bs.length ≤ target then rest else SockEv.chunk (bs.drop target) :: rest)

/-- Reading a byte of the receive buffer (buf[i]); out-of-range reads, which
would be undefined behaviour in C, default to 0. -/
def bufGet (buf : List Nat) (i : Nat) : Nat :=
  buf.getD i 0

/-- Writing a contiguous run of bytes into the buffer at position p. -/
def writeAt (buf : List Nat) (p : Nat) (bytes : List Nat) : List Nat :=
  buf.take p ++ bytes ++ buf.drop (p + bytes.length)

/-- The memmove of the straddle carry-over (Receiver.cpp lines 483-485):
bytes [off, off+n) move to position 0, the rest of the buffer stays. -/
def compactBuf (buf : List Nat) (off n : Nat) : List Nat :=
  ((buf.drop off).take n) ++ buf.drop n

/-- Conversion of an Int to the size_t it denotes (two-complement wrap at
2^64), used where the C code adds a signed value to a size_t. -/
def intToSize (i : Int) : Nat :=
  (i % (2 ^ 64 : Int)).toNat

/-- Result of a successful Protocol::decode: the advanced offset and the
decoded fields.  sourceSize, offset and fileSize are signed 64-bit values
(spec section 4.3). -/
structure DecRes where
  newOff : Nat
  id : List Nat
  sourceSize : Int
  offset : Int
  fileSize : Int
deriving DecidableEq

/-- Modelled from the spec: Protocol::decode (Protocol.cpp is not in src/).
decode buf off end parses a FILE_CMD payload starting at off within
buf[..end) and either fails or returns the decoded fields together with the
offset advanced past the consumed bytes.  The model leaves off unchanged on
failure. -/
def Codec : Type :=
  List Nat → Nat → Nat → Option DecRes

/-- The contract the spec gives for decode: it only advances the offset and
never consumes past the end of the valid window. -/
def CodecOk (d : Codec) : Prop :=
  ∀ buf off endIdx r, d buf off endIdx = some r →
    off ≤ r.newOff ∧ r.newOff ≤ endIdx

/-- A well-behaved sender: every decoded sourceSize is nonnegative. -/
def CodecNonneg (d : Codec) : Prop :=
  ∀ buf off endIdx r, d buf off endIdx = some r → 0 ≤ r.sourceSize

/-- Little-endian signed 64-bit integer from 8 bytes. -/
def sint64LE (bs : List Nat) : Int :=
  let u : Nat :=
    bufGet bs 0 + 256 * bufGet bs 1 + 256 ^ 2 * bufGet bs 2 +
    256 ^ 3 * bufGet bs 3 + 256 ^ 4 * bufGet bs 4 + 256 ^ 5 * bufGet bs 5 +
    256 ^ 6 * bufGet bs 6 + 256 ^ 7 * bufGet bs 7
  if u < 2 ^ 63 then (u : Int) else (u : Int) - 2 ^ 64

/-- Modelled from the spec: a concrete executable codec with the shape the
spec describes (a length-prefixed identifier followed by the three signed
64-bit integers); used to run the loop on concrete frames.  The exact wire
layout is opaque in the spec, so this is a representative layout. -/
def leCodec : Codec :=
  fun buf off endIdx =>
    let idLen := bufGet buf off
    if off + 1 + idLen + 24 ≤ endIdx then
      some ⟨off + 1 + idLen + 24,
            (buf.drop (off + 1)).take idLen,
            sint64LE ((buf.drop (off + 1 + idLen)).take 8),
            sint64LE ((buf.drop (off + 1 + idLen + 8)).take 8),
            sint64LE ((buf.drop (off + 1 + idLen + 16)).take 8)⟩
    else none

/-- Modelled from the spec: a degenerate codec that consumes the whole
window and declares an empty payload; used as a simple well-behaved
instance in witnesses. -/
def zeroCodec : Codec :=
  fun _ off endIdx =>
    if off ≤ endIdx then some ⟨endIdx, [], 0, 0, 0⟩ else none

/-- Static configuration a worker runs with: the effective buffer size, the
protocol constant kMaxHeader (Protocol.h is not in src/, so it stays a
parameter), the session mode, skip_writes, the retry budget, and the
codec. -/
structure Cfg where
  bufferSize : Nat
  kMaxHeader : Nat
  isJoinable : Bool
  doActualWrites : Bool
  maxRetries : Nat
  decode : Codec

/-- State of one accepted connection inside Receiver::receiveOne, together
with the worker-persistent pieces it mutates: the receive buffer, the
consumption offset off, the unconsumed count numRead, the destination file
descriptor (-1 when closed), the socket stream, the bytes written back to
the sender, the thread stats, and the filesystem-outcome environment
(successive results of createFile, lseek and write; an exhausted list
defaults to success). -/
structure ConnState where
  buf : List Nat
  off : Nat
  numRead : Int
  dest : Int
  sock : List SockEv
  out : List Nat
  stats : TransferStats
  creates : List Int
  seeks : List Bool
  writes : List Bool
deriving DecidableEq

/-- Outcome of one iteration of the inner protocol loop: return from the
worker, break out to accept the next connection, continue with the next
iteration, process exit (EXIT_CMD), or the WDT_CHECK abort. -/
inductive InnerOut where
  | ret (c : ConnState)
  | brk (c : ConnState)
  | cont (c : ConnState)
  | procExit
  | checkFail
deriving DecidableEq

/-- The dest-write step shared by the in-buffer write (Receiver.cpp lines
424-437) and the streaming write (lines 447-455): when dest is open,
perform the write, and on a short write or error record FileWriteError and
close dest; the next outcome is popped from the writes list (an exhausted
list defaults to success). -/
def destWrite (dest : Int) (stats : TransferStats) (writes : List Bool) :
    Int × TransferStats × List Bool :=
  if 0 ≤ dest then
    match writes with
    | [] => (dest, stats, ([] : List Bool))
    | ok :: tl =>
        if ok then (dest, stats, tl)
        else (-1, setErrorCode stats FILE_WRITE_ERROR, tl)
  else (dest, stats, writes)

/-- State bundle for the streaming tail of a FILE_CMD (Receiver.cpp lines
441-457). -/
structure FileSt where
  sock : List SockEv
  buf : List Nat
  dest : Int
  stats : TransferStats
  wres : Int
  writes : List Bool
deriving DecidableEq

/-- Embedding of the streaming-tail loop (Receiver.cpp lines 441-457):
while wres < sourceSize, read up to min(bufferSize, sourceSize - wres)
bytes into the start of the buffer, account them, write them to dest when
it is open (closing it on a short write), and add them to wres.  Each
productive iteration increases wres by at least one, so the loop runs at
most (sourceSize - wres) times; fuel is that bound, computed at the call
site, and the fuel 0 case coincides with the loop guard being false. -/
def streamTail (bufferSize : Nat) (sourceSize : Int) : Nat → FileSt → FileSt
  | 0, st => st
  | fuel + 1, st =>
    if st.wres < sourceSize then
      match readAtMost st.sock bufferSize (sourceSize - st.wres).toNat with
      | (nres, bytes, sock1) =>
        if nres ≤ 0 then { st with sock := sock1 }
        else
          let stats1 := addDataBytes st.stats nres
          let buf1 := writeAt st.buf 0 bytes
          let next := destWrite st.dest stats1 st.writes
          streamTail bufferSize sourceSize fuel
            ⟨sock1, buf1, next.1, next.2.1, st.wres + nres, next.2.2⟩
    else st

/-- Embedding of the destination-file section (Receiver.cpp lines 402-414):
when writes are enabled, open the file (recording FileWriteError and
leaving dest closed on failure), seek when offset > 0 (on failure record
FileWriteError and close), truncate when offset = 0 (result ignored).
Returns dest, the stats, and the remaining outcome lists. -/
def openDest (doWrites : Bool) (offset : Int) (stats : TransferStats)
    (creates : List Int) (seeks : List Bool) :
    Int × TransferStats × List Int × List Bool :=
  if doWrites then
    let pc : Int × List Int :=
      match creates with
      | [] => (3, [])
      | x :: t => (x, t)
    if pc.1 = -1 then (-1, setErrorCode stats FILE_WRITE_ERROR, pc.2, seeks)
    else if 0 < offset then
      let ps : Bool × List Bool :=
        match seeks with
        | [] => (true, [])
        | b :: t => (b, t)
      if ps.1 then (pc.1, stats, pc.2, ps.2)
      else (-1, setErrorCode stats FILE_WRITE_ERROR, pc.2, ps.2)
    else (pc.1, stats, pc.2, seeks)
  else (-1, stats, creates, seeks)

/-- Embedding of the FILE_CMD section of the inner loop (Receiver.cpp lines
386-494).  On entry c.off points just past the two magic/status bytes and
oldOffset is where the command began.  On decode failure the 2 already
consumed bytes are counted, ProtocolError is set and failedAttempts bumped.
Otherwise: count header bytes, open the destination, write as much of the
payload as the buffer already holds, stream the rest, and either credit the
block and carry over any straddle leftover, or bump failedAttempts and end
the connection. -/
def handleFile (cfg : Cfg) (c : ConnState) (oldOffset : Nat) : InnerOut :=
  let endIdx := c.numRead.toNat + oldOffset
  match cfg.decode c.buf c.off endIdx with
  | none =>
      InnerOut.brk
        { c with
            stats := incrFailedAttempts
              (setErrorCode (addHeaderBytes c.stats ((c.off : Int) - (oldOffset : Int)))
                PROTOCOL_ERROR) }
  | some r =>
      let headerLen : Int := (r.newOff : Int) - (oldOffset : Int)
      let stats1 := addHeaderBytes c.stats headerLen
      let od := openDest cfg.doActualWrites r.offset stats1 c.creates c.seeks
      let dest1 := od.1
      let stats2 := od.2.1
      let creates1 := od.2.2.1
      let seeks1 := od.2.2.2
      let remainingData : Int := c.numRead + (oldOffset : Int) - (r.newOff : Int)
      let toWrite : Int := if r.sourceSize ≤ remainingData then r.sourceSize else remainingData
      let stats3 := addDataBytes stats2 toWrite
      let iw := destWrite dest1 stats3 c.writes
      let off4 := intToSize ((r.newOff : Int) + toWrite)
      let remaining2 := remainingData - toWrite
      let fin := streamTail cfg.bufferSize r.sourceSize (r.sourceSize - toWrite).toNat
        ⟨c.sock, c.buf, iw.1, iw.2.1, toWrite, iw.2.2⟩
      if fin.wres ≠ r.sourceSize then
        InnerOut.brk
          { c with
              buf := fin.buf, off := off4, sock := fin.sock, dest := fin.dest,
              stats := incrFailedAttempts fin.stats,
              creates := creates1, seeks := seeks1, writes := fin.writes }
      else
        let stats5 := incrNumBlocks (addEffectiveBytes fin.stats headerLen r.sourceSize)
        if remaining2 < 0 then InnerOut.checkFail
        else if 0 < remaining2 then
          if remaining2 < (cfg.kMaxHeader : Int) ∧ cfg.bufferSize / 2 < off4 then
            InnerOut.cont
              { c with
                  buf := compactBuf fin.buf off4 remaining2.toNat, off := 0,
                  numRead := remaining2, dest := -1, sock := fin.sock, stats := stats5,
                  creates := creates1, seeks := seeks1, writes := fin.writes }
          else
            InnerOut.cont
              { c with
                  buf := fin.buf, off := off4, numRead := remaining2, dest := -1,
                  sock := fin.sock, stats := stats5,
                  creates := creates1, seeks := seeks1, writes := fin.writes }
        else
          InnerOut.cont
            { c with
                buf := fin.buf, off := 0, numRead := 0, dest := -1, sock := fin.sock,
                stats := stats5, creates := creates1, seeks := seeks1,
                writes := fin.writes }

/-- Embedding of the command dispatch of the inner loop (Receiver.cpp lines
332-494), entered after readAtLeast has refreshed the window: read the
magic byte and the transfer status, then dispatch on EXIT_CMD, DONE_CMD,
FILE_CMD or garbage.  The transfer status byte is consumed by advancing off
to oldOffset + 2; for DONE_CMD the byte at off-1 is overwritten with the
local error code and the two bytes at off-2 are echoed to the sender. -/
def processCmd (cfg : Cfg) (c : ConnState) : InnerOut :=
  let oldOffset := c.off
  let cmd := bufGet c.buf c.off
  if cmd = EXIT_CMD then
    if c.numRead ≠ 1 then
      InnerOut.brk
        { c with
            off := oldOffset + 1,
            stats := setErrorCode c.stats PROTOCOL_ERROR }
    else InnerOut.procExit
  else
    let ts := bufGet c.buf (oldOffset + 1)
    if cmd = DONE_CMD then
      if c.numRead ≠ 2 then
        InnerOut.brk
          { c with
              off := oldOffset + 2,
              stats := setErrorCode c.stats PROTOCOL_ERROR }
      else
        let buf2 := writeAt c.buf (oldOffset + 1) [c.stats.errorCode]
        let stats1 := if ts ≠ OK then setRemoteErrorCode c.stats ts else c.stats
        let reply := [bufGet buf2 oldOffset, bufGet buf2 (oldOffset + 1)]
        let stats2 := addEffectiveBytes (addHeaderBytes stats1 2) 2 0
        if cfg.isJoinable then
          InnerOut.ret
            { c with
                off := oldOffset + 2, buf := buf2,
                out := c.out ++ reply, stats := stats2 }
        else
          InnerOut.brk
            { c with
                off := oldOffset + 2, buf := buf2,
                out := c.out ++ reply, stats := setErrorCode stats2 OK }
    else if cmd ≠ FILE_CMD then
      InnerOut.brk
        { c with
            off := oldOffset + 2,
            stats := setErrorCode c.stats PROTOCOL_ERROR }
    else
      handleFile cfg { c with off := oldOffset + 2 } oldOffset

/-- One iteration of the inner protocol loop (Receiver.cpp lines 322-494):
refresh the window with readAtLeast (its bytes land at off + numRead), end
the connection when it reports EOF or an error, otherwise dispatch the
command.  readAtLeast CHECKs that its initial length is nonnegative; the
call passes numRead, which is nonnegative at every reachable call. -/
def innerStep (cfg : Cfg) (c : ConnState) : InnerOut :=
  match readAtLeast c.sock (cfg.bufferSize - c.off) cfg.kMaxHeader c.numRead.toNat with
  | (r, got, sock1) =>
    let c1 :=
      { c with
          buf := writeAt c.buf (c.off + c.numRead.toNat) got,
          numRead := r, sock := sock1 }
    if r ≤ 0 then InnerOut.brk c1 else processCmd cfg c1

/-- The connection state a worker starts a freshly accepted connection
with (Receiver.cpp lines 317-319). -/
def initConn (buf : List Nat) (sock : List SockEv) (stats : TransferStats)
    (creates : List Int) (seeks : List Bool) (writes : List Bool) : ConnState :=
  ⟨buf, 0, 0, -1, sock, [], stats, creates, seeks, writes⟩

/-- Result of running the inner loop to completion (with fuel bounding the
number of iterations; the loop can genuinely diverge on adversarial
decoded values, and blocks on a silent sender). -/
inductive InnerRes where
  | ret (c : ConnState)
  | brk (c : ConnState)
  | procExit
  | checkFail
  | fuelOut (c : ConnState)
deriving DecidableEq

def innerLoop (cfg : Cfg) : Nat → ConnState → InnerRes
  | 0, c => InnerRes.fuelOut c
  | fuel + 1, c =>
    match innerStep cfg c with
    | InnerOut.cont c1 => innerLoop cfg fuel c1
    | InnerOut.brk c1 => InnerRes.brk c1
    | InnerOut.ret c1 => InnerRes.ret c1
    | InnerOut.procExit => InnerRes.procExit
    | InnerOut.checkFail => InnerRes.checkFail

/-- The connection state carried by an inner-loop outcome, when there is
one. -/
def outConn : InnerOut → Option ConnState
  | InnerOut.ret c => some c
  | InnerOut.brk c => some c
  | InnerOut.cont c => some c
  | InnerOut.procExit => none
  | InnerOut.checkFail => none

def outStats (o : InnerOut) : Option TransferStats :=
  (outConn o).map ConnState.stats

def outKind : InnerOut → Nat
  | InnerOut.ret _ => 0
  | InnerOut.brk _ => 1
  | InnerOut.cont _ => 2
  | InnerOut.procExit => 3
  | InnerOut.checkFail => 4

def isRet : InnerOut → Bool
  | InnerOut.ret _ => true
  | _ => false

def isBrk : InnerOut → Bool
  | InnerOut.brk _ => true
  | _ => false

/-- The filesystem-independent view of a connection state: everything
except the destination descriptor, the local error code and the remaining
filesystem-outcome lists. -/
def fsView (c : ConnState) :
    List Nat × Nat × Int × List SockEv × List Nat ×
      Int × Int × Int × Int × Int × Int × ErrorCode :=
  (c.buf, c.off, c.numRead, c.sock, c.out,
   c.stats.headerBytes, c.stats.dataBytes, c.stats.effectiveHeaderBytes,
   c.stats.effectiveDataBytes, c.stats.numBlocks, c.stats.failedAttempts,
   c.stats.remoteErrorCode)

/-- The stats counters other than dataBytes, with the local error code left
out: the part of TransferStats the streaming tail can only change through
addDataBytes and setErrorCode. -/
def counterView (s : TransferStats) : Int × Int × Int × Int × Int × ErrorCode :=
  (s.headerBytes, s.effectiveHeaderBytes, s.effectiveDataBytes,
   s.numBlocks, s.failedAttempts, s.remoteErrorCode)

/-- How Receiver::receiveOne can end: the four return statements inside it
(listen failure, allocation failure, accept failure, DONE_CMD when
joinable), the EXIT_CMD process exit, the WDT_CHECK abort, running out of
modelled accept events (the C worker would block in accept), running out of
inner-loop fuel, and the statement after the outer while loop — which the
code can never reach, since the outer loop body contains no break. -/
inductive WorkerRes where
  | listenError
  | allocError
  | acceptError
  | doneJoinable
  | procExit
  | checkFail
  | blocked
  | fuelOut
  | postLoop
deriving DecidableEq

/-- Environment a worker run consumes: successive listen results, whether
the buffer allocation succeeds, the accepted connections (accept result and
socket stream each), and the filesystem outcomes. -/
structure WorkerEnv where
  listenResults : List ErrorCode
  allocOk : Bool
  conns : List (ErrorCode × List SockEv)
  creates : List Int
  seeks : List Bool
  writes : List Bool

/-- Modelled from the spec: one ServerSocket::listen call (ServerSocket is
not in src/).  Once listening, further calls keep returning OK (the final
listen at Receiver.cpp line 296 stays true if it worked in the loop); an
exhausted result list yields CONN_ERROR. -/
def listenAttempt (listening : Bool) (rs : List ErrorCode) :
    ErrorCode × Bool × List ErrorCode :=
  if listening then (OK, true, rs)
  else
    match rs with
    | [] => (CONN_ERROR, false, [])
    | r :: t => (r, r = OK, t)

/-- Embedding of the listen retry loop (Receiver.cpp lines 283-294):
at most maxRetries - 1 attempts; break on OK, return on CONN_ERROR,
otherwise sleep and retry.  The error value is the CONN_ERROR return. -/
def listenRetryLoop : Nat → Bool → List ErrorCode → Except Unit (Bool × List ErrorCode)
  | 0, listening, rs => Except.ok (listening, rs)
  | n + 1, listening, rs =>
    match listenAttempt listening rs with
    | (code, listening1, rs1) =>
      if code = OK then Except.ok (true, rs1)
      else if code = CONN_ERROR then Except.error ()
      else listenRetryLoop n listening1 rs1

/-- Outcome of one body of the outer accept loop: return from the worker,
go around for the next connection, or break out of the outer loop — the
last of which no branch of the body produces, matching the C body which
contains no break statement. -/
inductive OuterOut where
  | ret (r : WorkerRes) (stats : TransferStats)
  | next (buf : List Nat) (stats : TransferStats)
      (creates : List Int) (seeks : List Bool) (writes : List Bool)
  | brkOuter (stats : TransferStats)

/-- Embedding of one iteration of the outer accept loop (Receiver.cpp lines
310-502): accept (recording the error and returning on failure), run the
inner loop on a fresh connection state, then either return (DONE when
joinable, EXIT_CMD, abort), or close any open destination and the
connection and go around. -/
def outerBody (cfg : Cfg) (fuel : Nat) (buf : List Nat) (stats : TransferStats)
    (creates : List Int) (seeks : List Bool) (writes : List Bool)
    (conn : ErrorCode × List SockEv) : OuterOut :=
  if conn.1 ≠ OK then OuterOut.ret WorkerRes.acceptError (setErrorCode stats conn.1)
  else
    match innerLoop cfg fuel (initConn buf conn.2 stats creates seeks writes) with
    | InnerRes.ret c => OuterOut.ret WorkerRes.doneJoinable c.stats
    | InnerRes.brk c => OuterOut.next c.buf c.stats c.creates c.seeks c.writes
    | InnerRes.procExit => OuterOut.ret WorkerRes.procExit stats
    | InnerRes.checkFail => OuterOut.ret WorkerRes.checkFail stats
    | InnerRes.fuelOut c => OuterOut.ret WorkerRes.fuelOut c.stats

/-- The outer accept loop; if the body ever broke out, the statement after
the loop (Receiver.cpp line 503) would set the error code to OK. -/
def outerLoop (cfg : Cfg) (fuel : Nat) :
    List (ErrorCode × List SockEv) → List Nat → TransferStats →
    List Int → List Bool → List Bool → WorkerRes × TransferStats
  | [], _, stats, _, _, _ => (WorkerRes.blocked, stats)
  | conn :: rest, buf, stats, creates, seeks, writes =>
    match outerBody cfg fuel buf stats creates seeks writes conn with
    | OuterOut.ret r s => (r, s)
    | OuterOut.next b s cs sk wr => outerLoop cfg fuel rest b s cs sk wr
    | OuterOut.brkOuter s => (WorkerRes.postLoop, setErrorCode s OK)

/-- Embedding of Receiver::receiveOne (Receiver.cpp lines 275-504): the
listen retry phase (both CONN_ERROR returns), the buffer allocation check,
the initial setErrorCode(OK), then the outer accept loop. -/
def receiveOne (cfg : Cfg) (env : WorkerEnv) (fuel : Nat) : WorkerRes × TransferStats :=
  match listenRetryLoop (cfg.maxRetries - 1) false env.listenResults with
  | Except.error _ => (WorkerRes.listenError, setErrorCode statsInit CONN_ERROR)
  | Except.ok (listening, rs) =>
    match listenAttempt listening rs with
    | (code, _, _) =>
      if code ≠ OK then (WorkerRes.listenError, setErrorCode statsInit CONN_ERROR)
      else if ¬ env.allocOk then
        (WorkerRes.allocError, setErrorCode statsInit MEMORY_ALLOCATION_ERROR)
      else
        outerLoop cfg fuel env.conns (List.replicate cfg.bufferSize 0)
          (setErrorCode statsInit OK) env.creates env.seeks env.writes

/-- Embedding of the effective-buffer-size computation at start
(Receiver.cpp lines 250-257): when the configured value is below
kMaxHeader, round kMaxHeader up to the next multiple of 2 KiB;
otherwise keep the configured value. -/
def effectiveBufferSize (kMaxHeader bufferSize : Nat) : Nat :=
  if bufferSize < kMaxHeader then 2 * 1024 * ((kMaxHeader - 1) / (2 * 1024) + 1)
  else bufferSize

/-- The round-up the spec describes: the least multiple of 2 KiB that is at
least m (for positive m). -/
def specRoundUp (m : Nat) : Nat :=
  2048 * ((m + 2047) / 2048)

/-- Sequential model of the Receiver session controller state: the port
vector, the mode flags, the worker thread handles still held (as a count),
the progress-tracker thread handle state, the per-thread stats records
(abstract tokens), the server sockets (as a count), and the number of
condition-variable broadcasts performed. -/
structure RState where
  ports : List Nat
  isJoinable : Bool
  transferFinished : Bool
  receiverThreads : Nat
  trackerSpawned : Bool
  trackerJoined : Bool
  threadStats : List Int
  sockets : Nat
  notifyCount : Nat
deriving DecidableEq

/-- markTransferFinished (Receiver.cpp lines 108-114): set the flag under
the mutex and broadcast when finishing. -/
def markTransferFinished (r : RState) (isFinished : Bool) : RState :=
  { r with transferFinished := isFinished,
           notifyCount := if isFinished then r.notifyCount + 1 else r.notifyCount }

/-- Ways the sequential lifecycle model can fail: a guard rejection, a join
of a thread handle beyond the vector size (the second finish indexes
receiverThreads_[i] for every port although the vector was cleared), or a
join of a thread object that is not joinable (the progress tracker was
never spawned, or was already joined). -/
inductive LifeErr where
  | alreadyRunning
  | joinOutOfBounds
  | invalidTrackerJoin
deriving DecidableEq

/-- Embedding of Receiver::finish (Receiver.cpp lines 116-143): join the
workers in port order (indexing receiverThreads_[i] for i below
ports_.size()), mark the transfer finished and broadcast, join the
progress tracker, build the report from the collected stats, and clear the
thread, socket and stats vectors. -/
def finish (r : RState) : Except LifeErr (RState × List Int) :=
  if r.receiverThreads < r.ports.length then Except.error LifeErr.joinOutOfBounds
  else
    let r1 := markTransferFinished r true
    if ¬ (r1.trackerSpawned ∧ ¬ r1.trackerJoined) then
      Except.error LifeErr.invalidTrackerJoin
    else
      let r2 := { r1 with trackerJoined := true }
      let report := r2.threadStats
      Except.ok ({ r2 with receiverThreads := 0, sockets := 0, threadStats := [] },
        report)

/-- Embedding of Receiver::start (Receiver.cpp lines 242-273): mark the
transfer unfinished, then for each port append a stats record and a server
socket and spawn a worker; spawn the progress tracker when joinable. -/
def start (r : RState) : RState :=
  let r1 := markTransferFinished r false
  let n := r.ports.length
  { r1 with
      threadStats := r1.threadStats ++ List.replicate n 0,
      sockets := r1.sockets + n,
      receiverThreads := r1.receiverThreads + n,
      trackerSpawned := if r1.isJoinable then true else r1.trackerSpawned,
      trackerJoined := if r1.isJoinable then false else r1.trackerJoined }

/-- Embedding of Receiver::transferAsync (Receiver.cpp lines 145-157). -/
def transferAsync (r : RState) : Except LifeErr RState :=
  if ¬ r.transferFinished then Except.error LifeErr.alreadyRunning
  else Except.ok (start { r with isJoinable := true })

/-- Embedding of Receiver::runForever (Receiver.cpp lines 159-176): same
guard, then start and finish. -/
def runForever (r : RState) : Except LifeErr (RState × List Int) :=
  if ¬ r.transferFinished then Except.error LifeErr.alreadyRunning
  else finish (start r)

/-- Static configuration of the progress tracker: the two option values,
the session mode, and the file descriptors of the per-port server sockets
(listening and accepted). -/
structure WdCfg where
  intervalMs : Int
  maxStall : Int
  joinable : Bool
  listenFds : List Int
  fds : List Int

/-- What the tracker observes at one wakeup: whether the transfer has
finished, and the per-thread totalBytes values (size_t reads). -/
structure WdObs where
  finished : Bool
  totals : List Nat

/-- Tracker loop state: the previous total and the count of consecutive
zero-progress checks. -/
structure WdState where
  prevTotal : Nat
  zeroCount : Int
deriving DecidableEq

/-- The sum of the observed per-thread totals as the size_t accumulation
computes it. -/
def sumTotals (ts : List Nat) : Nat :=
  ts.sum % 2 ^ 64

/-- The size_t subtraction currentTotalBytes - totalBytes. -/
def sizeSub (a b : Nat) : Nat :=
  (((a : Int) - (b : Int)) % (2 ^ 64 : Int)).toNat

inductive WdStepOut where
  | exitFinished
  | exitStall (actions : List Int)
  | next (st : WdState)
deriving DecidableEq

/-- One wakeup of the progress tracker (Receiver.cpp lines 196-239): exit
when the transfer finished; otherwise sum the totals, bump the
zero-progress count when the delta is zero and reset it otherwise, and
past the threshold shut down every listening descriptor and then every
accepted descriptor — one shutdown call each, failures only logged — and
exit. -/
def wdStep (cfg : WdCfg) (st : WdState) (obs : WdObs) : WdStepOut :=
  if obs.finished then WdStepOut.exitFinished
  else
    let cur := sumTotals obs.totals
    let delta := sizeSub cur st.prevTotal
    let zc := if delta = 0 then st.zeroCount + 1 else 0
    if cfg.maxStall < zc then WdStepOut.exitStall (cfg.listenFds ++ cfg.fds)
    else WdStepOut.next ⟨cur, zc⟩

/-- How a tracker run ends: disabled by the entry guard, exit on transfer
finish, exit after shutting sockets down on a stall, or the observation
list ran out (the thread is still waiting). -/
inductive WdExit where
  | disabled
  | exitFinished
  | stalled
  | waiting
deriving DecidableEq

def wdRun (cfg : WdCfg) : List WdObs → WdState → WdExit × List Int
  | [], _ => (WdExit.waiting, [])
  | obs :: rest, st =>
    match wdStep cfg st obs with
    | WdStepOut.exitFinished => (WdExit.exitFinished, [])
    | WdStepOut.exitStall actions => (WdExit.stalled, actions)
    | WdStepOut.next st1 => wdRun cfg rest st1

/-- Embedding of Receiver::progressTracker (Receiver.cpp lines 178-240):
disabled when the check interval is negative or the session is not
joinable; otherwise the wakeup loop starting from total 0 and count 0.
The result lists the shutdown calls performed. -/
def progressTracker (cfg : WdCfg) (obss : List WdObs) : WdExit × List Int :=
  if cfg.intervalMs < 0 ∨ cfg.joinable = false then (WdExit.disabled, [])
  else wdRun cfg obss ⟨0, 0⟩

/-- The connection state carried by an inner-loop result, when there is
one. -/
def resConn : InnerRes → Option ConnState
  | InnerRes.ret c => some c
  | InnerRes.brk c => some c
  | InnerRes.fuelOut c => some c
  | InnerRes.procExit => none
  | InnerRes.checkFail => none

/-- The (off, numRead) pair an iteration hands to the next iteration of the
inner loop, when the step continues. -/
def contOffNumRead : InnerOut → Option (Nat × Int)
  | InnerOut.cont c => some (c.off, c.numRead)
  | _ => none

/-- Whether a pair satisfies the off ≤ numRead part of the claimed buffer
invariant. -/
def offLeNumRead (p : Nat × Int) : Bool :=
  decide ((p.1 : Int) ≤ p.2)

/-- The buffer invariant that actually holds at the top of every inner-loop
iteration: numRead is nonnegative and the unconsumed window [off, off +
numRead) lies inside the buffer. -/
def bufInv (cfg : Cfg) (c : ConnState) : Prop :=
  0 ≤ c.numRead ∧ c.off + c.numRead.toNat ≤ cfg.bufferSize

/-- Concrete worker configuration for the C1 counterexample: effective
buffer 2048, a representative kMaxHeader, joinable, skip_writes, the
representative codec. -/
def c1cfg : Cfg := ⟨2048, 282, true, false, 3, leCodec⟩

/-- A FILE_CMD frame (28-byte header: magic, status, 1-byte id length, id
"a", sourceSize 3, offset 0, fileSize 3), its 3 payload bytes, and one
leftover byte of the next frame. -/
def c1frame : List Nat :=
  [FILE_CMD, 0, 1, 97,
   3, 0, 0, 0, 0, 0, 0, 0,
   0, 0, 0, 0, 0, 0, 0, 0,
   3, 0, 0, 0, 0, 0, 0, 0,
   7, 8, 9, FILE_CMD]

def c1st : ConnState :=
  initConn (List.replicate 2048 0) [SockEv.chunk c1frame] statsInit [] [] []

def c1wcfg : Cfg := ⟨8, 4, true, false, 3, zeroCodec⟩

def c1wst : ConnState :=
  initConn (List.replicate 8 0) [SockEv.chunk [FILE_CMD, 0]] statsInit [] [] []

def c1wnext : ConnState :=
  match innerStep c1wcfg c1wst with
  | InnerOut.cont c => c
  | _ => c1wst

/-- A fresh two-port receiver in its constructed state. -/
def c3fresh : RState := ⟨[22356, 22357], false, true, 0, false, false, [], 0, 0⟩

def c3started : RState :=
  match transferAsync c3fresh with
  | Except.ok s => s
  | Except.error _ => c3fresh

def c3done : RState :=
  match finish c3started with
  | Except.ok (s, _) => s
  | Except.error _ => c3started

def c3wfresh : RState := ⟨[22360], false, true, 0, false, false, [], 0, 0⟩

def c5wcfg : Cfg := ⟨8, 4, true, false, 3, zeroCodec⟩

def c5wst : ConnState :=
  ⟨[DONE_CMD, 9, 0, 0, 0, 0, 0, 0], 0, 2, -1, [], [], statsInit, [], [], []⟩

def c8cfg : Cfg := ⟨2048, 282, true, false, 3, leCodec⟩

/-- A FILE_CMD frame whose declared sourceSize is the signed 64-bit value
-1 (eight 255 bytes), with offset 0 and fileSize 0. -/
def c8frame : List Nat :=
  [FILE_CMD, 0, 1, 97,
   255, 255, 255, 255, 255, 255, 255, 255,
   0, 0, 0, 0, 0, 0, 0, 0,
   0, 0, 0, 0, 0, 0, 0, 0]

def c8st : ConnState :=
  initConn (List.replicate 2048 0) [SockEv.chunk c8frame] statsInit [] [] []

def c8wcfg : Cfg := ⟨8, 4, true, false, 3, zeroCodec⟩

def c8wst : ConnState :=
  initConn (List.replicate 8 0) [SockEv.chunk [FILE_CMD, 0]] statsInit [] [] []

def c8wfin : ConnState :=
  match resConn (innerLoop c8wcfg 2 c8wst) with
  | some c => c
  | none => c8wst

def c9wcfg : Cfg := ⟨8, 4, true, false, 3, zeroCodec⟩

def c9wst : ConnState :=
  ⟨[FILE_CMD, 0, 5, 5, 0, 0, 0, 0], 0, 2, -1, [], [], statsInit, [], [], []⟩

def c7wcfg : WdCfg := ⟨50, 3, true, [10, 11], [20, 21]⟩

/-- The session state a first successful finish leaves behind, for a
receiver that was fresh before transferAsync. -/
def finishedState (r : RState) : RState :=
  { r with isJoinable := true, transferFinished := true,
           notifyCount := r.notifyCount + 1, receiverThreads := 0,
           trackerSpawned := true, trackerJoined := true,
           threadStats := [], sockets := 0 }

/-! Helper lemmas about readAtLeast. -/

theorem rle_nil : ∀ max atLeast len : Nat,
    readAtLeast [] max atLeast len = ((len : Int), [], ([] : List SockEv)) := by
  intro max atLeast len
  rw [readAtLeast.eq_def]
  by_cases h1 : atLeast ≤ len <;> by_cases h2 : max ≤ len <;> simp [h1, h2]

theorem rle_err_zero : ∀ (e : Nat) (rest : List SockEv) (max atLeast : Nat),
    0 < atLeast → 0 < max →
    readAtLeast (SockEv.err e :: rest) max atLeast 0 = (-(e : Int), [], rest) := by
  intro e rest max atLeast h1 h2
  rw [readAtLeast.eq_def]
  simp [Nat.not_le.mpr h1, Nat.not_le.mpr h2]

theorem rle_err_pos : ∀ (e : Nat) (rest : List SockEv) (max atLeast len : Nat),
    0 < len → len < atLeast →
    (readAtLeast (SockEv.err e :: rest) max atLeast len).1 = (len : Int) := by
  intro e rest max atLeast len h1 h2
  rw [readAtLeast.eq_def]
  by_cases h3 : max ≤ len <;> simp [Nat.not_le.mpr h2, h3, h1]

theorem rle_neg : ∀ (s : List SockEv) (max atLeast len : Nat),
    (readAtLeast s max atLeast len).1 < 0 → len = 0 := by
  intro s
  induction s with
  | nil =>
      intro max atLeast len h
      rw [rle_nil] at h
      omega
  | cons ev rest ih =>
      intro max atLeast len h
      rw [readAtLeast.eq_def] at h
      by_cases h1 : atLeast ≤ len
      · simp [h1] at h; omega
      · by_cases h2 : max ≤ len
        · simp [h1, h2] at h; omega
        · simp only [if_neg h1, if_neg h2] at h
          cases ev with
          | err e =>
              by_cases h3 : 0 < len
              · simp [h3] at h; omega
              · omega
          | chunk bs =>
              by_cases h3 : bs.length = 0
              · simp [h3] at h; omega
              · by_cases h4 : bs.length ≤ max - len
                · simp only [if_neg h3, if_pos h4] at h
                  have := ih max atLeast (len + bs.length) (by
                    cases hrec : readAtLeast rest max atLeast (len + bs.length) with
                    | mk r g => rw [hrec] at h; simpa using h)
                  omega
                · simp only [if_neg h3, if_neg h4] at h
                  omega

theorem rle_total : ∀ (s : List SockEv) (max atLeast len : Nat),
    0 ≤ (readAtLeast s max atLeast len).1 →
    (readAtLeast s max atLeast len).1 =
      (len : Int) + ((readAtLeast s max atLeast len).2.1.length : Int) := by
  intro s
  induction s with
  | nil =>
      intro max atLeast len _
      rw [rle_nil]
      simp
  | cons ev rest ih =>
      intro max atLeast len h
      rw [readAtLeast.eq_def] at h ⊢
      by_cases h1 : atLeast ≤ len
      · simp [h1]
      · by_cases h2 : max ≤ len
        · simp [h1, h2]
        · simp only [if_neg h1, if_neg h2] at h ⊢
          cases ev with
          | err e =>
              by_cases h3 : 0 < len
              · simp [h3]
              · simp only [if_neg h3] at h ⊢
                have he : (e : Int) = 0 := by omega
                simp [he]
                omega
          | chunk bs =>
              by_cases h3 : bs.length = 0
              · simp [h3]
              · by_cases h4 : bs.length ≤ max - len
                · simp only [if_neg h3, if_pos h4] at h ⊢
                  simp only [List.length_append]
                  have h5 := ih max atLeast (len + bs.length) h
                  rw [h5]
                  push_cast
                  ring
                · simp only [if_neg h3, if_neg h4] at h ⊢
                  simp only [List.length_take]
                  omega

/-! Claim C4. -/

/-- C4: readAtLeast returns the accumulated total (a value at least 0) when
EOF arrives before atLeast bytes are present, including 0 when nothing was
accumulated; on a socket error it returns the accumulated bytes when any
are present and the negative error value when zero bytes were accumulated;
a negative return can only happen with zero bytes accumulated, and a
nonnegative return is exactly the initial length plus the bytes read. -/
theorem c4_readAtLeast_eof_error :
    (∀ max atLeast len : Nat,
      readAtLeast [] max atLeast len = ((len : Int), [], ([] : List SockEv))) ∧
    (∀ (e : Nat) (rest : List SockEv) (max atLeast : Nat), 0 < atLeast → 0 < max →
      readAtLeast (SockEv.err e :: rest) max atLeast 0 = (-(e : Int), [], rest)) ∧
    (∀ (e : Nat) (rest : List SockEv) (max atLeast len : Nat), 0 < len → len < atLeast →
      (readAtLeast (SockEv.err e :: rest) max atLeast len).1 = (len : Int)) ∧
    (∀ (s : List SockEv) (max atLeast len : Nat),
      (readAtLeast s max atLeast len).1 < 0 → len = 0) ∧
    (∀ (s : List SockEv) (max atLeast len : Nat),
      0 ≤ (readAtLeast s max atLeast len).1 →
      (readAtLeast s max atLeast len).1 =
        (len : Int) + ((readAtLeast s max atLeast len).2.1.length : Int)) :=
  ⟨rle_nil, rle_err_zero, rle_err_pos, rle_neg, rle_total⟩

/-- Witness for C4 at concrete inputs. -/
theorem c4_readAtLeast_eof_error_witness :
    readAtLeast [] 10 5 0 = ((0 : Int), [], ([] : List SockEv)) ∧
    readAtLeast [SockEv.err 7] 9 2 0 = (-(7 : Int), [], ([] : List SockEv)) ∧
    (readAtLeast [SockEv.err 7] 9 5 1).1 = ((1 : Nat) : Int) ∧
    (0 : Nat) = 0 ∧
    (readAtLeast [SockEv.chunk [1, 2]] 9 5 0).1 =
      ((0 : Nat) : Int) + (((readAtLeast [SockEv.chunk [1, 2]] 9 5 0).2.1.length : Nat) : Int) :=
  ⟨c4_readAtLeast_eof_error.1 10 5 0,
   c4_readAtLeast_eof_error.2.1 7 [] 9 2 (by decide) (by decide),
   c4_readAtLeast_eof_error.2.2.1 7 [] 9 5 1 (by decide) (by decide),
   c4_readAtLeast_eof_error.2.2.2.1 [SockEv.err 7] 9 2 0 (by decide),
   c4_readAtLeast_eof_error.2.2.2.2 [SockEv.chunk [1, 2]] 9 5 0 (by decide)⟩

/-! Claim C2. -/

/-- C2 counterexample: with kMaxHeader 2100 (not a multiple of 2 KiB) and a
configured buffer_size of 3000 — at least kMaxHeader but below the next
2 KiB multiple 4096 — the effective size is the configured 3000, not the
rounded-up multiple the claim asserts. -/
theorem c2_max_formula_counterexample :
    effectiveBufferSize 2100 3000 = 3000 ∧ max 3000 (specRoundUp 2100) = 4096 ∧
      effectiveBufferSize 2100 3000 ≠ max 3000 (specRoundUp 2100) :=
  ⟨by decide, by decide, by decide⟩

/-- C2 amended: the effective size is the 2 KiB round-up of kMaxHeader
exactly when the configured value is below kMaxHeader (and that round-up is
the least 2 KiB multiple at or above kMaxHeader); when the configured value
is at least kMaxHeader the effective size is the configured value itself,
even when it is below the next 2 KiB multiple of kMaxHeader. -/
theorem c2_effective_buffer_size_amended :
    ∀ M c : Nat, 0 < M →
      ((c < M → effectiveBufferSize M c = specRoundUp M ∧
          M ≤ effectiveBufferSize M c ∧ effectiveBufferSize M c < M + 2048 ∧
          2048 ∣ effectiveBufferSize M c) ∧
        (M ≤ c → effectiveBufferSize M c = c)) := by
  intro M c hM
  constructor
  · intro hlt
    have h1 : effectiveBufferSize M c = 2 * 1024 * ((M - 1) / (2 * 1024) + 1) := by
      simp [effectiveBufferSize, hlt]
    rw [h1]
    refine ⟨?_, ?_, ?_, ?_⟩
    · simp only [specRoundUp]
      omega
    · omega
    · omega
    · exact ⟨(M - 1) / (2 * 1024) + 1, by ring⟩
  · intro hle
    simp [effectiveBufferSize, Nat.not_lt.mpr hle]

/-- Witness for C2 at kMaxHeader 282: a configured 100 rounds up to 2048, a
configured 3000 stays 3000. -/
theorem c2_effective_buffer_size_witness :
    (effectiveBufferSize 282 100 = specRoundUp 282 ∧
      282 ≤ effectiveBufferSize 282 100 ∧ effectiveBufferSize 282 100 < 282 + 2048 ∧
      2048 ∣ effectiveBufferSize 282 100) ∧
    effectiveBufferSize 282 3000 = 3000 :=
  ⟨(c2_effective_buffer_size_amended 282 100 (by decide)).1 (by decide),
   (c2_effective_buffer_size_amended 282 3000 (by decide)).2 (by decide)⟩

/-! Claim C1 counterexample. -/

set_option maxRecDepth 100000 in
/-- C1 counterexample: a fresh connection (off = 0, numRead = 0, which does
satisfy off ≤ numRead) receives one 32-byte segment holding a complete
28-byte FILE_CMD header, its 3 payload bytes and 1 leftover byte; the
iteration completes the file and carries the leftover in place, so the next
iteration starts with off = 31 and numRead = 1, violating the claimed
off ≤ numRead. -/
theorem c1_invariant_counterexample :
    offLeNumRead (c1st.off, c1st.numRead) = true ∧
      (contOffNumRead (innerStep c1cfg c1st)).map offLeNumRead = some false :=
  ⟨by decide, by decide⟩

/-! Claim C3. -/

/-- C3 counterexample: a fresh two-port receiver, after transferAsync and
one successful finish (which returns the two collected stats records and
clears everything), rejects a second finish: the join loop runs over
ports_.size() indices of the now-empty thread vector, an out-of-bounds
access, so the second call is not a no-op. -/
theorem c3_finish_not_idempotent :
    finish c3started = Except.ok (c3done, [0, 0]) ∧
      finish c3done = Except.error LifeErr.joinOutOfBounds :=
  ⟨rfl, rfl⟩

/-- C3 amended: on a fresh receiver, transferAsync starts the session and
the first finish joins the workers, marks the transfer finished with a
broadcast, joins the watchdog, returns the report built from the collected
stats and clears workers, sockets and stats.  A second finish is not a
no-op: it indexes the cleared thread vector out of bounds.  In forever
mode (runForever calls start then finish with joinable false) the watchdog
thread was never spawned, so the join of the tracker thread is invalid
rather than the behaviour the claim describes. -/
theorem c3_finish_first_call :
    ∀ r : RState,
      r.transferFinished = true → r.receiverThreads = 0 → r.trackerSpawned = false →
      r.threadStats = [] → r.sockets = 0 → 0 < r.ports.length → r.isJoinable = false →
      (transferAsync r = Except.ok (start { r with isJoinable := true }) ∧
       finish (start { r with isJoinable := true }) =
         Except.ok (finishedState r, List.replicate r.ports.length 0) ∧
       finish (finishedState r) = Except.error LifeErr.joinOutOfBounds ∧
       finish (start r) = Except.error LifeErr.invalidTrackerJoin) := by
  intro r h1 h2 h3 h4 h5 h6 h7
  refine ⟨?_, ?_, ?_, ?_⟩
  · simp [transferAsync, h1]
  · simp [finish, start, markTransferFinished, finishedState, h2, h3, h4, h5, h6]
  · simp [finish, finishedState, h6]
  · simp [finish, start, markTransferFinished, h2, h3, h7]

/-- Witness for C3 on a concrete fresh one-port receiver. -/
theorem c3_finish_first_call_witness :
    transferAsync c3wfresh = Except.ok (start { c3wfresh with isJoinable := true }) ∧
    finish (start { c3wfresh with isJoinable := true }) =
      Except.ok (finishedState c3wfresh, List.replicate c3wfresh.ports.length 0) ∧
    finish (finishedState c3wfresh) = Except.error LifeErr.joinOutOfBounds ∧
    finish (start c3wfresh) = Except.error LifeErr.invalidTrackerJoin :=
  c3_finish_first_call c3wfresh (by decide) (by decide) (by decide) (by decide)
    (by decide) (by decide) (by decide)

/-! Claim C7. -/

theorem sizeSub_zero_iff : ∀ a b : Nat, a < 2 ^ 64 → b < 2 ^ 64 →
    (sizeSub a b = 0 ↔ a = b) := by
  intro a b ha hb
  unfold sizeSub
  omega

/-- C7: the progress tracker is disabled unless the session is joinable and
the check interval is nonnegative; a wakeup with the transfer finished
exits immediately; an ordinary wakeup bumps the zero-progress count exactly
when the summed total equals the previous total and resets it otherwise,
and past the threshold exits after one shutdown call for every listening
descriptor and then every accepted descriptor; whenever a run ends in the
stalled exit, the shutdown calls performed are exactly that list, with no
retries. -/
theorem c7_progress_tracker :
    (∀ (cfg : WdCfg) (obss : List WdObs), cfg.intervalMs < 0 ∨ cfg.joinable = false →
      progressTracker cfg obss = (WdExit.disabled, [])) ∧
    (∀ (cfg : WdCfg) (st : WdState) (obs : WdObs), obs.finished = true →
      wdStep cfg st obs = WdStepOut.exitFinished) ∧
    (∀ (cfg : WdCfg) (st : WdState) (obs : WdObs), obs.finished = false →
      st.prevTotal < 2 ^ 64 →
      wdStep cfg st obs =
        (if cfg.maxStall < (if sumTotals obs.totals = st.prevTotal then st.zeroCount + 1 else 0)
         then WdStepOut.exitStall (cfg.listenFds ++ cfg.fds)
         else WdStepOut.next
           ⟨sumTotals obs.totals,
            if sumTotals obs.totals = st.prevTotal then st.zeroCount + 1 else 0⟩)) ∧
    (∀ (cfg : WdCfg) (obss : List WdObs) (st : WdState),
      (wdRun cfg obss st).1 = WdExit.stalled →
      (wdRun cfg obss st).2 = cfg.listenFds ++ cfg.fds) := by
  refine ⟨?_, ?_, ?_, ?_⟩
  · intro cfg obss h
    simp only [progressTracker]
    rcases h with h | h
    · simp [h]
    · simp [h]
  · intro cfg st obs h
    simp [wdStep, h]
  · intro cfg st obs h hlt
    have hcur : sumTotals obs.totals < 2 ^ 64 := Nat.mod_lt _ (by norm_num)
    have hiff := sizeSub_zero_iff (sumTotals obs.totals) st.prevTotal hcur hlt
    simp only [wdStep, h, Bool.false_eq_true, if_false]
    by_cases heq : sumTotals obs.totals = st.prevTotal
    · rw [if_pos (hiff.mpr heq), if_pos heq]
    · rw [if_neg (fun hz => heq (hiff.mp hz)), if_neg heq]
  · intro cfg obss
    induction obss with
    | nil => intro st h; simp [wdRun] at h
    | cons obs rest ih =>
        intro st h
        rw [wdRun] at h ⊢
        cases hstep : wdStep cfg st obs with
        | exitFinished => rw [hstep] at h; simp at h
        | exitStall actions =>
            rw [hstep] at h
            simp only [wdStep] at hstep
            by_cases hf : obs.finished = true
            · simp [hf] at hstep
            · simp only [hf, Bool.false_eq_true, if_false] at hstep
              by_cases hs : cfg.maxStall <
                  (if sizeSub (sumTotals obs.totals) st.prevTotal = 0
                   then st.zeroCount + 1 else 0)
              · simp only [if_pos hs] at hstep
                cases hstep
                rfl
              · simp [if_neg hs] at hstep
        | next st1 => rw [hstep] at h; exact ih st1 h

/-- Witness for C7 at concrete inputs: a negative interval disables the
tracker; a finished observation exits; a first ordinary observation with
progress resets the count; four zero-progress checks against threshold 3
shut down the two listening and two accepted descriptors exactly once
each. -/
theorem c7_progress_tracker_witness :
    progressTracker ⟨-1, 3, true, [], []⟩ [] = (WdExit.disabled, []) ∧
    wdStep c7wcfg ⟨0, 0⟩ ⟨true, []⟩ = WdStepOut.exitFinished ∧
    wdStep c7wcfg ⟨0, 0⟩ ⟨false, [5]⟩ =
      (if c7wcfg.maxStall <
          (if sumTotals [5] = (⟨0, 0⟩ : WdState).prevTotal
           then (⟨0, 0⟩ : WdState).zeroCount + 1 else 0)
       then WdStepOut.exitStall (c7wcfg.listenFds ++ c7wcfg.fds)
       else WdStepOut.next
         ⟨sumTotals [5],
          if sumTotals [5] = (⟨0, 0⟩ : WdState).prevTotal
          then (⟨0, 0⟩ : WdState).zeroCount + 1 else 0⟩) ∧
    (wdRun c7wcfg (List.replicate 4 ⟨false, []⟩) ⟨0, 0⟩).2 =
      c7wcfg.listenFds ++ c7wcfg.fds :=
  ⟨c7_progress_tracker.1 ⟨-1, 3, true, [], []⟩ [] (Or.inl (by decide)),
   c7_progress_tracker.2.1 c7wcfg ⟨0, 0⟩ ⟨true, []⟩ (by decide),
   c7_progress_tracker.2.2.1 c7wcfg ⟨0, 0⟩ ⟨false, [5]⟩ (by decide) (by decide),
   c7_progress_tracker.2.2.2 c7wcfg (List.replicate 4 ⟨false, []⟩) ⟨0, 0⟩ (by decide)⟩

/-! Helper lemmas about buffer reads after writes. -/

theorem bufGet_writeAt_same : ∀ (buf : List Nat) (p : Nat) (v : Nat),
    p < buf.length → bufGet (writeAt buf p [v]) p = v := by
  intro buf p v hp
  unfold bufGet writeAt
  rw [List.getD_eq_getElem?_getD]
  rw [@List.getElem?_append Nat (buf.take p ++ [v]) _ _]
  rw [if_pos (by simp [List.length_take]; try omega)]
  rw [List.getElem?_append_right (by simp [List.length_take]; try omega)]
  simp [List.length_take, Nat.min_eq_left (Nat.le_of_lt hp)]

theorem bufGet_writeAt_lt : ∀ (buf : List Nat) (p i : Nat) (bs : List Nat),
    i < p → i < buf.length → bufGet (writeAt buf p bs) i = bufGet buf i := by
  intro buf p i bs hip hib
  unfold bufGet writeAt
  rw [List.getD_eq_getElem?_getD, List.getD_eq_getElem?_getD]
  rw [@List.getElem?_append Nat (buf.take p ++ bs) _ _]
  rw [if_pos (by simp [List.length_take]; try omega)]
  rw [@List.getElem?_append Nat (buf.take p) _ _]
  rw [if_pos (by simp [List.length_take]; try omega)]
  rw [List.getElem?_take_of_lt hip]

/-! Claim C5. -/

/-- C5: on DONE_CMD with numRead = 2 the worker overwrites buf[off-1] with
its current local error code, echoes exactly those two bytes (the DONE
opcode and the local error code), records the remote error code when the
received transfer status is non-OK, adds 2 to headerBytes and to
effectiveHeaderBytes while every other counter is unchanged, and then
returns when joinable, or resets the local error to OK and breaks the
inner loop when not joinable; the socket input stream is not consumed
further. -/
theorem c5_done_cmd_handling (cfg : Cfg) (c : ConnState)
    (hcmd : bufGet c.buf c.off = DONE_CMD) (hn : c.numRead = 2)
    (hlen : c.off + 1 < c.buf.length) :
    (if cfg.isJoinable then isRet (processCmd cfg c) else isBrk (processCmd cfg c)) = true ∧
    (outConn (processCmd cfg c)).map ConnState.out =
      some (c.out ++ [DONE_CMD, c.stats.errorCode]) ∧
    (outStats (processCmd cfg c)).map TransferStats.headerBytes =
      some (c.stats.headerBytes + 2) ∧
    (outStats (processCmd cfg c)).map TransferStats.effectiveHeaderBytes =
      some (c.stats.effectiveHeaderBytes + 2) ∧
    (outStats (processCmd cfg c)).map TransferStats.effectiveDataBytes =
      some c.stats.effectiveDataBytes ∧
    (outStats (processCmd cfg c)).map TransferStats.dataBytes = some c.stats.dataBytes ∧
    (outStats (processCmd cfg c)).map TransferStats.numBlocks = some c.stats.numBlocks ∧
    (outStats (processCmd cfg c)).map TransferStats.remoteErrorCode =
      some (if bufGet c.buf (c.off + 1) ≠ OK then bufGet c.buf (c.off + 1)
            else c.stats.remoteErrorCode) ∧
    (outStats (processCmd cfg c)).map TransferStats.errorCode =
      some (if cfg.isJoinable then c.stats.errorCode else OK) ∧
    (outConn (processCmd cfg c)).map ConnState.sock = some c.sock := by
  have hoff : c.off < c.buf.length := by omega
  have hb1 : bufGet (writeAt c.buf (c.off + 1) [c.stats.errorCode]) (c.off + 1) =
      c.stats.errorCode := bufGet_writeAt_same _ _ _ hlen
  have hb0 : bufGet (writeAt c.buf (c.off + 1) [c.stats.errorCode]) c.off = DONE_CMD := by
    rw [bufGet_writeAt_lt _ _ _ _ (by omega) hoff, hcmd]
  have hde : ¬ (DONE_CMD = EXIT_CMD) := by decide
  by_cases hj : cfg.isJoinable <;>
    by_cases hts : bufGet c.buf (c.off + 1) = OK <;>
      simp [processCmd, hcmd, hn, hj, hts, hb0, hb1, hde,
        outConn, outStats, isRet, isBrk, addHeaderBytes, addEffectiveBytes,
        setErrorCode, setRemoteErrorCode]

/-- Witness for C5: a joinable worker whose window holds exactly a DONE
frame with a non-OK sender status byte 9. -/
theorem c5_done_cmd_handling_witness :
    (if c5wcfg.isJoinable then isRet (processCmd c5wcfg c5wst)
     else isBrk (processCmd c5wcfg c5wst)) = true ∧
    (outConn (processCmd c5wcfg c5wst)).map ConnState.out =
      some (c5wst.out ++ [DONE_CMD, c5wst.stats.errorCode]) ∧
    (outStats (processCmd c5wcfg c5wst)).map TransferStats.headerBytes =
      some (c5wst.stats.headerBytes + 2) ∧
    (outStats (processCmd c5wcfg c5wst)).map TransferStats.effectiveHeaderBytes =
      some (c5wst.stats.effectiveHeaderBytes + 2) ∧
    (outStats (processCmd c5wcfg c5wst)).map TransferStats.effectiveDataBytes =
      some c5wst.stats.effectiveDataBytes ∧
    (outStats (processCmd c5wcfg c5wst)).map TransferStats.dataBytes =
      some c5wst.stats.dataBytes ∧
    (outStats (processCmd c5wcfg c5wst)).map TransferStats.numBlocks =
      some c5wst.stats.numBlocks ∧
    (outStats (processCmd c5wcfg c5wst)).map TransferStats.remoteErrorCode =
      some (if bufGet c5wst.buf (c5wst.off + 1) ≠ OK then bufGet c5wst.buf (c5wst.off + 1)
            else c5wst.stats.remoteErrorCode) ∧
    (outStats (processCmd c5wcfg c5wst)).map TransferStats.errorCode =
      some (if c5wcfg.isJoinable then c5wst.stats.errorCode else OK) ∧
    (outConn (processCmd c5wcfg c5wst)).map ConnState.sock = some c5wst.sock :=
  c5_done_cmd_handling c5wcfg c5wst (by decide) (by decide) (by decide)

/-! Claim C10. -/

theorem outerBody_no_brk (cfg : Cfg) (fuel : Nat) (buf : List Nat)
    (stats : TransferStats) (creates : List Int) (seeks : List Bool)
    (writes : List Bool) (conn : ErrorCode × List SockEv) (s : TransferStats) :
    outerBody cfg fuel buf stats creates seeks writes conn ≠ OuterOut.brkOuter s := by
  unfold outerBody
  by_cases h : conn.1 ≠ OK
  · simp [h]
  · rw [if_neg h]
    cases innerLoop cfg fuel (initConn buf conn.2 stats creates seeks writes) <;> simp

theorem outerBody_ret_not_postLoop (cfg : Cfg) (fuel : Nat) (buf : List Nat)
    (stats : TransferStats) (creates : List Int) (seeks : List Bool)
    (writes : List Bool) (conn : ErrorCode × List SockEv) (r : WorkerRes)
    (s : TransferStats) :
    outerBody cfg fuel buf stats creates seeks writes conn = OuterOut.ret r s →
    r ≠ WorkerRes.postLoop := by
  unfold outerBody
  by_cases h : conn.1 ≠ OK
  · rw [if_pos h]
    intro he
    cases he
    simp
  · rw [if_neg h]
    cases innerLoop cfg fuel (initConn buf conn.2 stats creates seeks writes) <;>
      (intro he; first | (cases he; simp) | simp at he)

theorem outerLoop_no_postLoop (cfg : Cfg) (fuel : Nat) :
    ∀ (conns : List (ErrorCode × List SockEv)) (buf : List Nat)
      (stats : TransferStats) (creates : List Int) (seeks : List Bool)
      (writes : List Bool),
      (outerLoop cfg fuel conns buf stats creates seeks writes).1 ≠
        WorkerRes.postLoop := by
  intro conns
  induction conns with
  | nil => intro buf stats cs sk wr; simp [outerLoop]
  | cons conn rest ih =>
      intro buf stats cs sk wr
      rw [outerLoop]
      cases hb : outerBody cfg fuel buf stats cs sk wr conn with
      | ret r s => exact outerBody_ret_not_postLoop cfg fuel buf stats cs sk wr conn r s hb
      | next b s c2 s2 w2 => exact ih b s c2 s2 w2
      | brkOuter s => exact absurd hb (outerBody_no_brk cfg fuel buf stats cs sk wr conn s)

/-- C10: for every configuration, environment and fuel, receiveOne never
ends through the statement after the outer accept loop: its body contains
no break, so the final setErrorCode(OK) at Receiver.cpp line 503 is
unreachable and a worker can only end at one of the return statements
inside the function (listen failure, allocation failure, accept failure,
DONE_CMD when joinable), the EXIT_CMD process exit, the WDT_CHECK abort,
or by still running (blocked in accept or out of fuel). -/
theorem c10_post_loop_unreachable : ∀ (cfg : Cfg) (env : WorkerEnv) (fuel : Nat),
    (receiveOne cfg env fuel).1 ≠ WorkerRes.postLoop := by
  intro cfg env fuel
  unfold receiveOne
  cases listenRetryLoop (cfg.maxRetries - 1) false env.listenResults with
  | error e => simp
  | ok p =>
      cases p with
      | mk listening rs =>
        simp only
        cases hla : listenAttempt listening rs with
        | mk code p2 =>
          simp only
          by_cases h1 : code ≠ OK
          · simp [h1]
          · rw [if_neg h1]
            by_cases h2 : ¬ env.allocOk
            · simp [h2]
            · rw [if_neg h2]
              exact outerLoop_no_postLoop cfg fuel env.conns _ _ env.creates env.seeks env.writes

/-! Helper lemmas for the FILE_CMD section. -/

theorem destWrite_counters : ∀ (d : Int) (s : TransferStats) (w : List Bool),
    counterView (destWrite d s w).2.1 = counterView s ∧
    (destWrite d s w).2.1.dataBytes = s.dataBytes := by
  intro d s w
  unfold destWrite
  by_cases hd : 0 ≤ d
  · rw [if_pos hd]
    cases w with
    | nil => simp
    | cons ok tl =>
        by_cases hok : ok
        · simp [hok]
        · simp [hok, setErrorCode, counterView]
  · rw [if_neg hd]
    simp

theorem streamTail_spec : ∀ (bufferSize : Nat) (ss : Int) (fuel : Nat) (st : FileSt),
    counterView (streamTail bufferSize ss fuel st).stats = counterView st.stats ∧
    (streamTail bufferSize ss fuel st).stats.dataBytes =
      st.stats.dataBytes + ((streamTail bufferSize ss fuel st).wres - st.wres) ∧
    st.wres ≤ (streamTail bufferSize ss fuel st).wres := by
  intro bufferSize ss fuel
  induction fuel with
  | zero => intro st; simp [streamTail]
  | succ n ih =>
      intro st
      rw [streamTail]
      by_cases hg : st.wres < ss
      · rw [if_pos hg]
        cases hr : readAtMost st.sock bufferSize (ss - st.wres).toNat with
        | mk nres p =>
          simp only
          by_cases hn : nres ≤ 0
          · rw [if_pos hn]
            simp
          · rw [if_neg hn]
            obtain ⟨ha, hb, hc⟩ := ih ⟨p.2, writeAt st.buf 0 p.1,
              (destWrite st.dest (addDataBytes st.stats nres) st.writes).1,
              (destWrite st.dest (addDataBytes st.stats nres) st.writes).2.1,
              st.wres + nres,
              (destWrite st.dest (addDataBytes st.stats nres) st.writes).2.2⟩
            obtain ⟨hdc, hdd⟩ :=
              destWrite_counters st.dest (addDataBytes st.stats nres) st.writes
            dsimp only [addDataBytes, counterView] at ha hb hc hdc hdd ⊢
            refine ⟨?_, by omega, by omega⟩
            rw [ha, hdc]
      · rw [if_neg hg]
        simp

theorem streamTail_indep : ∀ (bufferSize : Nat) (ss : Int) (fuel : Nat)
    (sock : List SockEv) (buf : List Nat) (wres : Int)
    (d1 d2 : Int) (s1 s2 : TransferStats) (w1 w2 : List Bool),
    counterView s1 = counterView s2 → s1.dataBytes = s2.dataBytes →
    ((streamTail bufferSize ss fuel ⟨sock, buf, d1, s1, wres, w1⟩).sock =
       (streamTail bufferSize ss fuel ⟨sock, buf, d2, s2, wres, w2⟩).sock ∧
     (streamTail bufferSize ss fuel ⟨sock, buf, d1, s1, wres, w1⟩).buf =
       (streamTail bufferSize ss fuel ⟨sock, buf, d2, s2, wres, w2⟩).buf ∧
     (streamTail bufferSize ss fuel ⟨sock, buf, d1, s1, wres, w1⟩).wres =
       (streamTail bufferSize ss fuel ⟨sock, buf, d2, s2, wres, w2⟩).wres ∧
     counterView (streamTail bufferSize ss fuel ⟨sock, buf, d1, s1, wres, w1⟩).stats =
       counterView (streamTail bufferSize ss fuel ⟨sock, buf, d2, s2, wres, w2⟩).stats ∧
     (streamTail bufferSize ss fuel ⟨sock, buf, d1, s1, wres, w1⟩).stats.dataBytes =
       (streamTail bufferSize ss fuel ⟨sock, buf, d2, s2, wres, w2⟩).stats.dataBytes) := by
  intro bufferSize ss fuel
  induction fuel with
  | zero =>
      intro sock buf wres d1 d2 s1 s2 w1 w2 hc hd
      simp [streamTail]
      exact ⟨hc, hd⟩
  | succ n ih =>
      intro sock buf wres d1 d2 s1 s2 w1 w2 hc hd
      rw [streamTail, streamTail]
      by_cases hg : wres < ss
      · simp only [if_pos hg]
        cases hr : readAtMost sock bufferSize (ss - wres).toNat with
        | mk nres p =>
          simp only
          by_cases hn : nres ≤ 0
          · simp only [if_pos hn]
            refine ⟨?_, ?_, ?_, ?_, ?_⟩ <;> first | rfl | trivial | exact hc | exact hd
          · simp only [if_neg hn]
            obtain ⟨hdc1, hdd1⟩ := destWrite_counters d1 (addDataBytes s1 nres) w1
            obtain ⟨hdc2, hdd2⟩ := destWrite_counters d2 (addDataBytes s2 nres) w2
            apply ih
            · rw [hdc1, hdc2]
              dsimp only [addDataBytes, counterView]
              dsimp only [counterView] at hc
              exact hc
            · rw [hdd1, hdd2]
              dsimp only [addDataBytes]
              omega
      · simp only [if_neg hg]
        refine ⟨?_, ?_, ?_, ?_, ?_⟩ <;> first | rfl | trivial | exact hc | exact hd

theorem openDest_counters : ∀ (dw : Bool) (off : Int) (s : TransferStats)
    (cs : List Int) (sk : List Bool),
    counterView (openDest dw off s cs sk).2.1 = counterView s ∧
    (openDest dw off s cs sk).2.1.dataBytes = s.dataBytes := by
  intro dw off s cs sk
  unfold openDest
  rcases cs with _ | ⟨x, t⟩ <;> rcases sk with _ | ⟨b, t2⟩ <;> simp only <;>
    split_ifs <;> first | exact ⟨rfl, rfl⟩ | simp [setErrorCode, counterView]

theorem handleFile_indep : ∀ (cfg : Cfg) (c : ConnState) (oldOffset : Nat)
    (cs1 cs2 : List Int) (sk1 sk2 : List Bool) (wr1 wr2 : List Bool),
    outKind (handleFile cfg { c with creates := cs1, seeks := sk1, writes := wr1 } oldOffset) =
      outKind (handleFile cfg { c with creates := cs2, seeks := sk2, writes := wr2 } oldOffset) ∧
    (outConn (handleFile cfg
        { c with creates := cs1, seeks := sk1, writes := wr1 } oldOffset)).map fsView =
      (outConn (handleFile cfg
        { c with creates := cs2, seeks := sk2, writes := wr2 } oldOffset)).map fsView := by
  intro cfg c oldOffset cs1 cs2 sk1 sk2 wr1 wr2
  unfold handleFile
  dsimp only
  cases hdec : cfg.decode c.buf c.off (c.numRead.toNat + oldOffset) with
  | none => simp [outKind, outConn, fsView, incrFailedAttempts, setErrorCode, addHeaderBytes]
  | some r =>
      dsimp only
      set tw := (if r.sourceSize ≤ c.numRead + (oldOffset : Int) - (r.newOff : Int)
                 then r.sourceSize else c.numRead + (oldOffset : Int) - (r.newOff : Int)) with htw
      set hdr := addHeaderBytes c.stats ((r.newOff : Int) - (oldOffset : Int)) with hhdr
      set od1 := openDest cfg.doActualWrites r.offset hdr cs1 sk1 with hod1
      set od2 := openDest cfg.doActualWrites r.offset hdr cs2 sk2 with hod2
      set dw1 := destWrite od1.1 (addDataBytes od1.2.1 tw) wr1 with hdw1
      set dw2 := destWrite od2.1 (addDataBytes od2.2.1 tw) wr2 with hdw2
      set fin1 := streamTail cfg.bufferSize r.sourceSize (r.sourceSize - tw).toNat
        ⟨c.sock, c.buf, dw1.1, dw1.2.1, tw, dw1.2.2⟩ with hfin1
      set fin2 := streamTail cfg.bufferSize r.sourceSize (r.sourceSize - tw).toNat
        ⟨c.sock, c.buf, dw2.1, dw2.2.1, tw, dw2.2.2⟩ with hfin2
      obtain ⟨hoc1, hod1d⟩ := openDest_counters cfg.doActualWrites r.offset hdr cs1 sk1
      obtain ⟨hoc2, hod2d⟩ := openDest_counters cfg.doActualWrites r.offset hdr cs2 sk2
      obtain ⟨hwc1, hwd1⟩ := destWrite_counters od1.1 (addDataBytes od1.2.1 tw) wr1
      obtain ⟨hwc2, hwd2⟩ := destWrite_counters od2.1 (addDataBytes od2.2.1 tw) wr2
      have hcv : counterView dw1.2.1 = counterView dw2.2.1 := by
        rw [hdw1, hdw2, hwc1, hwc2]
        have e1 : counterView (addDataBytes od1.2.1 tw) = counterView od1.2.1 := rfl
        have e2 : counterView (addDataBytes od2.2.1 tw) = counterView od2.2.1 := rfl
        rw [e1, e2, hoc1, hoc2]
      have hdb : dw1.2.1.dataBytes = dw2.2.1.dataBytes := by
        rw [hdw1, hdw2, hwd1, hwd2]
        have e1 : (addDataBytes od1.2.1 tw).dataBytes = od1.2.1.dataBytes + tw := rfl
        have e2 : (addDataBytes od2.2.1 tw).dataBytes = od2.2.1.dataBytes + tw := rfl
        rw [e1, e2, hod1d, hod2d]
      obtain ⟨hsock, hbuf, hwres, hcv2, hdb2⟩ :=
        streamTail_indep cfg.bufferSize r.sourceSize (r.sourceSize - tw).toNat
          c.sock c.buf tw dw1.1 dw2.1 dw1.2.1 dw2.2.1 dw1.2.2 dw2.2.2 hcv hdb
      rw [← hfin1, ← hfin2] at hsock hbuf hwres hcv2 hdb2
      simp only [counterView, Prod.mk.injEq] at hcv2
      obtain ⟨e1, e2, e3, e4, e5, e6⟩ := hcv2
      rw [hwres]
      by_cases hw : fin2.wres ≠ r.sourceSize
      · rw [if_pos hw, if_pos hw]
        refine ⟨rfl, ?_⟩
        simp only [outConn, Option.map_some', Option.some.injEq, fsView,
          incrFailedAttempts, Prod.mk.injEq]
        simp [hbuf, hsock, e1, hdb2, e2, e3, e4, e5, e6]
      · rw [if_neg hw, if_neg hw]
        by_cases hr2 : c.numRead + (oldOffset : Int) - (r.newOff : Int) - tw < 0
        · rw [if_pos hr2, if_pos hr2]
          exact ⟨rfl, rfl⟩
        · rw [if_neg hr2, if_neg hr2]
          by_cases hr3 : 0 < c.numRead + (oldOffset : Int) - (r.newOff : Int) - tw
          · rw [if_pos hr3, if_pos hr3]
            by_cases hr4 : c.numRead + (oldOffset : Int) - (r.newOff : Int) - tw <
                (cfg.kMaxHeader : Int) ∧
                cfg.bufferSize / 2 < intToSize ((r.newOff : Int) + tw)
            · rw [if_pos hr4, if_pos hr4]
              refine ⟨rfl, ?_⟩
              simp only [outConn, Option.map_some', Option.some.injEq, fsView,
                incrNumBlocks, addEffectiveBytes, Prod.mk.injEq]
              simp [hbuf, hsock, e1, hdb2, e2, e3, e4, e5, e6]
            · rw [if_neg hr4, if_neg hr4]
              refine ⟨rfl, ?_⟩
              simp only [outConn, Option.map_some', Option.some.injEq, fsView,
                incrNumBlocks, addEffectiveBytes, Prod.mk.injEq]
              simp [hbuf, hsock, e1, hdb2, e2, e3, e4, e5, e6]
          · rw [if_neg hr3, if_neg hr3]
            refine ⟨rfl, ?_⟩
            simp only [outConn, Option.map_some', Option.some.injEq, fsView,
              incrNumBlocks, addEffectiveBytes, Prod.mk.injEq]
            simp [hbuf, hsock, e1, hdb2, e2, e3, e4, e5, e6]

theorem processCmd_indep : ∀ (cfg : Cfg) (c : ConnState)
    (cs1 cs2 : List Int) (sk1 sk2 : List Bool) (wr1 wr2 : List Bool),
    outKind (processCmd cfg { c with creates := cs1, seeks := sk1, writes := wr1 }) =
      outKind (processCmd cfg { c with creates := cs2, seeks := sk2, writes := wr2 }) ∧
    (outConn (processCmd cfg
        { c with creates := cs1, seeks := sk1, writes := wr1 })).map fsView =
      (outConn (processCmd cfg
        { c with creates := cs2, seeks := sk2, writes := wr2 })).map fsView := by
  intro cfg c cs1 cs2 sk1 sk2 wr1 wr2
  unfold processCmd
  dsimp only
  by_cases h1 : bufGet c.buf c.off = EXIT_CMD
  · rw [if_pos h1, if_pos h1]
    by_cases h2 : c.numRead ≠ 1
    · rw [if_pos h2, if_pos h2]
      simp [outKind, outConn, fsView, setErrorCode]
    · rw [if_neg h2, if_neg h2]
      exact ⟨rfl, rfl⟩
  · rw [if_neg h1, if_neg h1]
    by_cases hD : bufGet c.buf c.off = DONE_CMD
    · rw [if_pos hD, if_pos hD]
      by_cases h2 : c.numRead ≠ 2
      · rw [if_pos h2, if_pos h2]
        simp [outKind, outConn, fsView, setErrorCode]
      · rw [if_neg h2, if_neg h2]
        by_cases hj : cfg.isJoinable
        · simp only [if_pos hj]
          simp [outKind, outConn, fsView, addHeaderBytes, addEffectiveBytes,
            setRemoteErrorCode]
        · simp only [if_neg hj]
          simp [outKind, outConn, fsView, addHeaderBytes, addEffectiveBytes,
            setRemoteErrorCode, setErrorCode]
    · rw [if_neg hD, if_neg hD]
      by_cases hF : bufGet c.buf c.off ≠ FILE_CMD
      · rw [if_pos hF, if_pos hF]
        simp [outKind, outConn, fsView, setErrorCode]
      · rw [if_neg hF, if_neg hF]
        exact handleFile_indep cfg { c with off := c.off + 2 } c.off cs1 cs2 sk1 sk2 wr1 wr2

/-! Claim C6. -/

/-- C6: a FileWriteError (failed open, seek, or short disk write) does not
end the connection and does not change what is consumed from the socket:
for any two filesystem environments (successive createFile, lseek and write
outcomes), one inner-loop step from the same connection state yields the
same outcome kind (return, break, continue, process exit or abort), and
identical buffer contents, offsets, numRead, socket stream position, reply
bytes and all stats counters except the local error code - exactly as if
the writes had succeeded, with the payload drained with dest closed. -/
theorem c6_fs_independent : ∀ (cfg : Cfg) (c : ConnState)
    (cs1 cs2 : List Int) (sk1 sk2 : List Bool) (wr1 wr2 : List Bool),
    outKind (innerStep cfg { c with creates := cs1, seeks := sk1, writes := wr1 }) =
      outKind (innerStep cfg { c with creates := cs2, seeks := sk2, writes := wr2 }) ∧
    (outConn (innerStep cfg
        { c with creates := cs1, seeks := sk1, writes := wr1 })).map fsView =
      (outConn (innerStep cfg
        { c with creates := cs2, seeks := sk2, writes := wr2 })).map fsView := by
  intro cfg c cs1 cs2 sk1 sk2 wr1 wr2
  unfold innerStep
  dsimp only
  cases hr : readAtLeast c.sock (cfg.bufferSize - c.off) cfg.kMaxHeader c.numRead.toNat with
  | mk r p =>
    dsimp only
    by_cases h : r ≤ 0
    · rw [if_pos h, if_pos h]
      simp [outKind, outConn, fsView]
    · rw [if_neg h, if_neg h]
      exact processCmd_indep cfg
        { c with buf := writeAt c.buf (c.off + c.numRead.toNat) p.1,
                 numRead := r, sock := p.2 } cs1 cs2 sk1 sk2 wr1 wr2


/-! Helper lemmas for claims C8 and C9: the well-behaved codec instance,
and monotonicity of the counters through the loop. -/

theorem zeroCodec_ok : CodecOk zeroCodec := by
  intro buf off endIdx r h
  unfold zeroCodec at h
  by_cases ho : off ≤ endIdx
  · rw [if_pos ho] at h
    cases h
    exact ⟨ho, Nat.le_refl _⟩
  · rw [if_neg ho] at h
    cases h

theorem zeroCodec_nonneg : CodecNonneg zeroCodec := by
  intro buf off endIdx r h
  unfold zeroCodec at h
  by_cases ho : off ≤ endIdx
  · rw [if_pos ho] at h
    cases h
    exact le_refl _
  · rw [if_neg ho] at h
    cases h

theorem handleFile_mono : ∀ (cfg : Cfg) (c : ConnState) (oldOffset : Nat),
    CodecOk cfg.decode → CodecNonneg cfg.decode → oldOffset ≤ c.off → 0 < c.numRead →
    ∀ c', outConn (handleFile cfg c oldOffset) = some c' →
      c.stats.headerBytes ≤ c'.stats.headerBytes ∧
      c.stats.dataBytes ≤ c'.stats.dataBytes := by
  intro cfg c oldOffset hok hnn hoo hnr c' hc
  unfold handleFile at hc
  dsimp only at hc
  cases hdec : cfg.decode c.buf c.off (c.numRead.toNat + oldOffset) with
  | none =>
      rw [hdec] at hc
      dsimp only at hc
      cases hc
      dsimp only [incrFailedAttempts, setErrorCode, addHeaderBytes]
      omega
  | some r =>
      obtain ⟨hlo, hhi⟩ := hok c.buf c.off (c.numRead.toNat + oldOffset) r hdec
      have hss := hnn c.buf c.off (c.numRead.toNat + oldOffset) r hdec
      rw [hdec] at hc
      dsimp only at hc
      set tw := (if r.sourceSize ≤ c.numRead + (oldOffset : Int) - (r.newOff : Int)
                 then r.sourceSize else c.numRead + (oldOffset : Int) - (r.newOff : Int)) with htw
      set hdr := addHeaderBytes c.stats ((r.newOff : Int) - (oldOffset : Int)) with hhdr
      set od1 := openDest cfg.doActualWrites r.offset hdr c.creates c.seeks with hod1
      set dw1 := destWrite od1.1 (addDataBytes od1.2.1 tw) c.writes with hdw1
      set fin1 := streamTail cfg.bufferSize r.sourceSize (r.sourceSize - tw).toNat
        ⟨c.sock, c.buf, dw1.1, dw1.2.1, tw, dw1.2.2⟩ with hfin1
      obtain ⟨hoc1, hod1d⟩ := openDest_counters cfg.doActualWrites r.offset hdr c.creates c.seeks
      obtain ⟨hwc1, hwd1⟩ := destWrite_counters od1.1 (addDataBytes od1.2.1 tw) c.writes
      rw [← hod1] at hoc1 hod1d
      rw [← hdw1] at hwc1 hwd1
      obtain ⟨hsc, hsd, hsw⟩ := streamTail_spec cfg.bufferSize r.sourceSize
        (r.sourceSize - tw).toNat ⟨c.sock, c.buf, dw1.1, dw1.2.1, tw, dw1.2.2⟩
      rw [← hfin1] at hsc hsd hsw
      dsimp only at hsc hsd hsw
      have hrd : (0 : Int) ≤ c.numRead + (oldOffset : Int) - (r.newOff : Int) := by
        have : (r.newOff : Int) ≤ (c.numRead.toNat : Int) + (oldOffset : Int) := by
          exact_mod_cast Nat.cast_le.mpr hhi
        omega
      have htw0 : (0 : Int) ≤ tw := by
        rw [htw]
        split <;> omega
      have hhl : (0 : Int) ≤ (r.newOff : Int) - (oldOffset : Int) := by
        have : (oldOffset : Int) ≤ (r.newOff : Int) := by
          have h1 : (oldOffset : Int) ≤ (c.off : Int) := by exact_mod_cast hoo
          have h2 : (c.off : Int) ≤ (r.newOff : Int) := by exact_mod_cast hlo
          omega
        omega
      simp only [counterView, Prod.mk.injEq] at hsc hoc1 hwc1
      have hdrh : hdr.headerBytes = c.stats.headerBytes + ((r.newOff : Int) - (oldOffset : Int)) := rfl
      have hdrd : hdr.dataBytes = c.stats.dataBytes := rfl
      have haddh : (addDataBytes od1.2.1 tw).headerBytes = od1.2.1.headerBytes := rfl
      have haddd : (addDataBytes od1.2.1 tw).dataBytes = od1.2.1.dataBytes + tw := rfl
      by_cases hw : fin1.wres ≠ r.sourceSize
      · rw [if_pos hw] at hc
        cases hc
        dsimp only [incrFailedAttempts]
        constructor
        · rw [hsc.1, hwc1.1, haddh, hoc1.1, hdrh]
          omega
        · rw [hsd, hwd1, haddd, hod1d, hdrd]
          omega
      · rw [if_neg hw] at hc
        by_cases hr2 : c.numRead + (oldOffset : Int) - (r.newOff : Int) - tw < 0
        · rw [if_pos hr2] at hc
          cases hc
        · rw [if_neg hr2] at hc
          by_cases hr3 : (0 : Int) < c.numRead + (oldOffset : Int) - (r.newOff : Int) - tw
          · rw [if_pos hr3] at hc
            by_cases hr4 : c.numRead + (oldOffset : Int) - (r.newOff : Int) - tw <
                (cfg.kMaxHeader : Int) ∧
                cfg.bufferSize / 2 < intToSize ((r.newOff : Int) + tw)
            · rw [if_pos hr4] at hc
              cases hc
              dsimp only [incrNumBlocks, addEffectiveBytes]
              constructor
              · rw [hsc.1, hwc1.1, haddh, hoc1.1, hdrh]; omega
              · rw [hsd, hwd1, haddd, hod1d, hdrd]; omega
            · rw [if_neg hr4] at hc
              cases hc
              dsimp only [incrNumBlocks, addEffectiveBytes]
              constructor
              · rw [hsc.1, hwc1.1, haddh, hoc1.1, hdrh]; omega
              · rw [hsd, hwd1, haddd, hod1d, hdrd]; omega
          · rw [if_neg hr3] at hc
            cases hc
            dsimp only [incrNumBlocks, addEffectiveBytes]
            constructor
            · rw [hsc.1, hwc1.1, haddh, hoc1.1, hdrh]; omega
            · rw [hsd, hwd1, haddd, hod1d, hdrd]; omega

theorem processCmd_mono : ∀ (cfg : Cfg) (c : ConnState),
    CodecOk cfg.decode → CodecNonneg cfg.decode → 0 < c.numRead →
    ∀ c', outConn (processCmd cfg c) = some c' →
      c.stats.headerBytes ≤ c'.stats.headerBytes ∧
      c.stats.dataBytes ≤ c'.stats.dataBytes := by
  intro cfg c hok hnn hnr c' hc
  unfold processCmd at hc
  dsimp only at hc
  by_cases h1 : bufGet c.buf c.off = EXIT_CMD
  · rw [if_pos h1] at hc
    by_cases h2 : c.numRead ≠ 1
    · rw [if_pos h2] at hc
      dsimp only [outConn] at hc
      cases hc
      dsimp only [setErrorCode]
      omega
    · rw [if_neg h2] at hc
      dsimp only [outConn] at hc
      cases hc
  · rw [if_neg h1] at hc
    by_cases hD : bufGet c.buf c.off = DONE_CMD
    · rw [if_pos hD] at hc
      by_cases h2 : c.numRead ≠ 2
      · rw [if_pos h2] at hc
        dsimp only [outConn] at hc
        cases hc
        dsimp only [setErrorCode]
        omega
      · rw [if_neg h2] at hc
        by_cases hts : bufGet c.buf (c.off + 1) ≠ OK
        all_goals first
          | rw [if_pos hts] at hc
          | rw [if_neg hts] at hc
        all_goals by_cases hj : cfg.isJoinable
        all_goals first
          | rw [if_pos hj] at hc
          | rw [if_neg hj] at hc
        all_goals dsimp only [outConn] at hc
        all_goals cases hc
        all_goals dsimp only [addEffectiveBytes, addHeaderBytes, setErrorCode,
          setRemoteErrorCode]
        all_goals omega
    · rw [if_neg hD] at hc
      by_cases hF : bufGet c.buf c.off ≠ FILE_CMD
      · rw [if_pos hF] at hc
        dsimp only [outConn] at hc
        cases hc
        dsimp only [setErrorCode]
        omega
      · rw [if_neg hF] at hc
        have := handleFile_mono cfg { c with off := c.off + 2 } c.off hok hnn
          (by dsimp only; omega) (by dsimp only; exact hnr) c' hc
        exact this

theorem innerStep_mono : ∀ (cfg : Cfg) (c : ConnState),
    CodecOk cfg.decode → CodecNonneg cfg.decode →
    ∀ c', outConn (innerStep cfg c) = some c' →
      c.stats.headerBytes ≤ c'.stats.headerBytes ∧
      c.stats.dataBytes ≤ c'.stats.dataBytes := by
  intro cfg c hok hnn c' hc
  unfold innerStep at hc
  cases hr : readAtLeast c.sock (cfg.bufferSize - c.off) cfg.kMaxHeader c.numRead.toNat with
  | mk r p =>
    rw [hr] at hc
    dsimp only at hc
    by_cases h : r ≤ 0
    · rw [if_pos h] at hc
      dsimp only [outConn] at hc
      cases hc
      exact ⟨le_refl _, le_refl _⟩
    · rw [if_neg h] at hc
      exact processCmd_mono cfg
        { c with buf := writeAt c.buf (c.off + c.numRead.toNat) p.1,
                 numRead := r, sock := p.2 } hok hnn (by dsimp only; omega) c' hc

/-! Claim C8. -/

set_option maxRecDepth 100000 in
/-- C8 counterexample: a connection delivering a FILE_CMD frame whose
decoded sourceSize is the signed 64-bit value -1 makes the worker add -1
to dataBytes: the counter drops from 0 to -1 within the connection (and
the block is even credited, the step continuing normally). -/
theorem c8_data_bytes_decrease_counterexample :
    c8st.stats.dataBytes = 0 ∧
      (outStats (innerStep c8cfg c8st)).map TransferStats.dataBytes = some (-1) :=
  ⟨by decide, by decide⟩

/-- C8 amended: headerBytes and dataBytes never decrease over any run of
the inner protocol loop, for every input stream, provided decode respects
its window contract and every decoded sourceSize is nonnegative.  Without
the nonnegativity proviso the claim fails: a FILE_CMD header declaring a
negative signed 64-bit sourceSize makes addDataBytes(toWrite) decrease
dataBytes (see the counterexample). -/
theorem c8_counters_monotonic_amended : ∀ (cfg : Cfg) (fuel : Nat) (c : ConnState),
    CodecOk cfg.decode → CodecNonneg cfg.decode →
    ∀ c', resConn (innerLoop cfg fuel c) = some c' →
      c.stats.headerBytes ≤ c'.stats.headerBytes ∧
      c.stats.dataBytes ≤ c'.stats.dataBytes := by
  intro cfg fuel
  induction fuel with
  | zero =>
      intro c hok hnn c' hc
      dsimp only [innerLoop, resConn] at hc
      cases hc
      exact ⟨le_refl _, le_refl _⟩
  | succ n ih =>
      intro c hok hnn c' hc
      rw [innerLoop] at hc
      cases hstep : innerStep cfg c with
      | cont c1 =>
          rw [hstep] at hc
          dsimp only at hc
          have h1 := innerStep_mono cfg c hok hnn c1 (by rw [hstep]; rfl)
          have h2 := ih c1 hok hnn c' hc
          exact ⟨le_trans h1.1 h2.1, le_trans h1.2 h2.2⟩
      | brk c1 =>
          rw [hstep] at hc
          dsimp only [resConn] at hc
          cases hc
          exact innerStep_mono cfg c hok hnn _ (by rw [hstep]; rfl)
      | ret c1 =>
          rw [hstep] at hc
          dsimp only [resConn] at hc
          cases hc
          exact innerStep_mono cfg c hok hnn _ (by rw [hstep]; rfl)
      | procExit =>
          rw [hstep] at hc
          dsimp only [resConn] at hc
          cases hc
      | checkFail =>
          rw [hstep] at hc
          dsimp only [resConn] at hc
          cases hc

set_option maxRecDepth 100000 in
/-- Witness for C8 on a concrete run with the well-behaved codec. -/
theorem c8_counters_monotonic_amended_witness :
    c8wst.stats.headerBytes ≤ c8wfin.stats.headerBytes ∧
      c8wst.stats.dataBytes ≤ c8wfin.stats.dataBytes :=
  c8_counters_monotonic_amended c8wcfg 2 c8wst zeroCodec_ok zeroCodec_nonneg c8wfin
    (by decide)


/-! Claim C9. -/

theorem handleFile_credit : ∀ (cfg : Cfg) (c : ConnState) (oldOffset : Nat) (r : DecRes),
    cfg.decode c.buf c.off (c.numRead.toNat + oldOffset) = some r →
    CodecOk cfg.decode → 0 < c.numRead →
    (((outStats (handleFile cfg c oldOffset)).map TransferStats.numBlocks =
        some (c.stats.numBlocks + 1) ∧
      (outStats (handleFile cfg c oldOffset)).map TransferStats.effectiveDataBytes =
        some (c.stats.effectiveDataBytes + r.sourceSize)) ↔
     (outStats (handleFile cfg c oldOffset)).map TransferStats.dataBytes =
       some (c.stats.dataBytes + r.sourceSize)) := by
  intro cfg c oldOffset r hdec hok hnr
  obtain ⟨hlo, hhi⟩ := hok c.buf c.off (c.numRead.toNat + oldOffset) r hdec
  unfold handleFile
  dsimp only
  rw [hdec]
  dsimp only
  set tw := (if r.sourceSize ≤ c.numRead + (oldOffset : Int) - (r.newOff : Int)
             then r.sourceSize else c.numRead + (oldOffset : Int) - (r.newOff : Int)) with htw
  set hdr := addHeaderBytes c.stats ((r.newOff : Int) - (oldOffset : Int)) with hhdr
  set od1 := openDest cfg.doActualWrites r.offset hdr c.creates c.seeks with hod1
  set dw1 := destWrite od1.1 (addDataBytes od1.2.1 tw) c.writes with hdw1
  set fin1 := streamTail cfg.bufferSize r.sourceSize (r.sourceSize - tw).toNat
    ⟨c.sock, c.buf, dw1.1, dw1.2.1, tw, dw1.2.2⟩ with hfin1
  obtain ⟨hoc1, hod1d⟩ := openDest_counters cfg.doActualWrites r.offset hdr c.creates c.seeks
  obtain ⟨hwc1, hwd1⟩ := destWrite_counters od1.1 (addDataBytes od1.2.1 tw) c.writes
  rw [← hod1] at hoc1 hod1d
  rw [← hdw1] at hwc1 hwd1
  obtain ⟨hsc, hsd, hsw⟩ := streamTail_spec cfg.bufferSize r.sourceSize
    (r.sourceSize - tw).toNat ⟨c.sock, c.buf, dw1.1, dw1.2.1, tw, dw1.2.2⟩
  rw [← hfin1] at hsc hsd hsw
  dsimp only at hsc hsd hsw
  have hrd : (0 : Int) ≤ c.numRead + (oldOffset : Int) - (r.newOff : Int) := by
    have : (r.newOff : Int) ≤ (c.numRead.toNat : Int) + (oldOffset : Int) := by
      exact_mod_cast Nat.cast_le.mpr hhi
    omega
  simp only [counterView, Prod.mk.injEq] at hsc hoc1 hwc1
  have haddh : (addDataBytes od1.2.1 tw).numBlocks = od1.2.1.numBlocks := rfl
  have hadde : (addDataBytes od1.2.1 tw).effectiveDataBytes = od1.2.1.effectiveDataBytes := rfl
  have haddd : (addDataBytes od1.2.1 tw).dataBytes = od1.2.1.dataBytes + tw := rfl
  have hnb : fin1.stats.numBlocks = c.stats.numBlocks := by
    rw [hsc.2.2.2.1, hwc1.2.2.2.1, haddh, hoc1.2.2.2.1]
    rfl
  have hed : fin1.stats.effectiveDataBytes = c.stats.effectiveDataBytes := by
    rw [hsc.2.2.1, hwc1.2.2.1, hadde, hoc1.2.2.1]
    rfl
  have hdb : fin1.stats.dataBytes = c.stats.dataBytes + fin1.wres := by
    rw [hsd, hwd1, haddd, hod1d]
    have : hdr.dataBytes = c.stats.dataBytes := rfl
    rw [this]
    ring
  by_cases hw : fin1.wres ≠ r.sourceSize
  · rw [if_pos hw]
    simp only [outStats, outConn, Option.map_some', Option.some.injEq]
    dsimp only [incrFailedAttempts]
    rw [hnb, hed, hdb]
    constructor
    · intro h
      omega
    · intro h
      omega
  · rw [if_neg hw]
    have hw' : fin1.wres = r.sourceSize := by omega
    have hr2 : ¬ (c.numRead + (oldOffset : Int) - (r.newOff : Int) - tw < 0) := by
      rw [htw]
      split <;> omega
    rw [if_neg hr2]
    by_cases hr3 : (0 : Int) < c.numRead + (oldOffset : Int) - (r.newOff : Int) - tw
    · rw [if_pos hr3]
      by_cases hr4 : c.numRead + (oldOffset : Int) - (r.newOff : Int) - tw <
          (cfg.kMaxHeader : Int) ∧
          cfg.bufferSize / 2 < intToSize ((r.newOff : Int) + tw)
      · rw [if_pos hr4]
        simp only [outStats, outConn, Option.map_some', Option.some.injEq]
        dsimp only [incrNumBlocks, addEffectiveBytes]
        rw [hnb, hed, hdb, hw']
        constructor
        · intro h
          omega
        · intro h
          omega
      · rw [if_neg hr4]
        simp only [outStats, outConn, Option.map_some', Option.some.injEq]
        dsimp only [incrNumBlocks, addEffectiveBytes]
        rw [hnb, hed, hdb, hw']
        constructor
        · intro h; omega
        · intro h; omega
    · rw [if_neg hr3]
      simp only [outStats, outConn, Option.map_some', Option.some.injEq]
      dsimp only [incrNumBlocks, addEffectiveBytes]
      rw [hnb, hed, hdb, hw']
      constructor
      · intro h; omega
      · intro h; omega

/-- C9: on a FILE_CMD, numBlocks is incremented and effectiveDataBytes
credited with sourceSize exactly when the full declared sourceSize bytes of
payload were consumed from the socket (dataBytes grew by sourceSize) -
regardless of the destination file: the statement quantifies over every
configuration (including skip_writes) and every filesystem-outcome
environment, so the credit also happens with dest closed after a
FileWriteError, and an incremented numBlocks does not imply the bytes
reached a file. -/
theorem c9_blocks_credited_iff_consumed (cfg : Cfg) (c : ConnState) (r : DecRes)
    (hok : CodecOk cfg.decode) (hnr : 0 < c.numRead)
    (hcmd : bufGet c.buf c.off = FILE_CMD)
    (hdec : cfg.decode c.buf (c.off + 2) (c.numRead.toNat + c.off) = some r) :
    (((outStats (processCmd cfg c)).map TransferStats.numBlocks =
        some (c.stats.numBlocks + 1) ∧
      (outStats (processCmd cfg c)).map TransferStats.effectiveDataBytes =
        some (c.stats.effectiveDataBytes + r.sourceSize)) ↔
     (outStats (processCmd cfg c)).map TransferStats.dataBytes =
       some (c.stats.dataBytes + r.sourceSize)) := by
  unfold processCmd
  dsimp only
  rw [hcmd]
  rw [if_neg (by decide : ¬ (FILE_CMD = EXIT_CMD))]
  rw [if_neg (by decide : ¬ (FILE_CMD = DONE_CMD))]
  rw [if_neg (by decide : ¬ (FILE_CMD ≠ FILE_CMD))]
  exact handleFile_credit cfg { c with off := c.off + 2 } c.off r
    (by dsimp only; exact hdec) hok (by dsimp only; exact hnr)

/-- Witness for C9: a FILE_CMD processed with writes disabled (dest never
opened) still credits the block exactly when the declared payload was
consumed. -/
theorem c9_blocks_credited_iff_consumed_witness :
    (((outStats (processCmd c9wcfg c9wst)).map TransferStats.numBlocks =
        some (c9wst.stats.numBlocks + 1) ∧
      (outStats (processCmd c9wcfg c9wst)).map TransferStats.effectiveDataBytes =
        some (c9wst.stats.effectiveDataBytes + (0 : Int))) ↔
     (outStats (processCmd c9wcfg c9wst)).map TransferStats.dataBytes =
       some (c9wst.stats.dataBytes + (0 : Int))) :=
  c9_blocks_credited_iff_consumed c9wcfg c9wst ⟨2, [], 0, 0, 0⟩ zeroCodec_ok (by decide) (by decide) (by decide)

/-! Claim C1 amended theorem. -/

theorem intToSize_eq : ∀ i : Int, 0 ≤ i → i < 2 ^ 64 → intToSize i = i.toNat := by
  intro i h1 h2
  unfold intToSize
  omega

theorem rle_le_max : ∀ (s : List SockEv) (max atLeast len : Nat), len ≤ max →
    (readAtLeast s max atLeast len).1 ≤ (max : Int) := by
  intro s
  induction s with
  | nil =>
      intro max atLeast len h
      rw [rle_nil]
      dsimp only
      exact_mod_cast h
  | cons ev rest ih =>
      intro max atLeast len h
      rw [readAtLeast.eq_def]
      by_cases h1 : atLeast ≤ len
      · simp only [if_pos h1]
        exact_mod_cast h
      · by_cases h2 : max ≤ len
        · simp only [if_neg h1, if_pos h2]
          exact_mod_cast h
        · simp only [if_neg h1, if_neg h2]
          cases ev with
          | err e =>
              dsimp only
              by_cases h3 : 0 < len
              · rw [if_pos h3]
                exact_mod_cast h
              · rw [if_neg h3]
                omega
          | chunk bs =>
              by_cases h3 : bs.length = 0
              · simp only [if_pos h3]
                exact_mod_cast h
              · by_cases h4 : bs.length ≤ max - len
                · simp only [if_neg h3, if_pos h4]
                  cases hrec : readAtLeast rest max atLeast (len + bs.length) with
                  | mk r g =>
                      have := ih max atLeast (len + bs.length) (by omega)
                      rw [hrec] at this
                      simpa using this
                · simp only [if_neg h3, if_neg h4]
                  exact le_refl _

theorem handleFile_cont_inv : ∀ (cfg : Cfg) (c : ConnState) (oldOffset : Nat)
    (c' : ConnState),
    CodecOk cfg.decode → CodecNonneg cfg.decode → 0 < c.numRead →
    (oldOffset : Int) + c.numRead ≤ (cfg.bufferSize : Int) →
    cfg.bufferSize < 2 ^ 64 →
    handleFile cfg c oldOffset = InnerOut.cont c' →
    0 ≤ c'.numRead ∧ c'.off + c'.numRead.toNat ≤ cfg.bufferSize := by
  intro cfg c oldOffset c' hok hnn hnr hin hbs h
  unfold handleFile at h
  dsimp only at h
  cases hdec : cfg.decode c.buf c.off (c.numRead.toNat + oldOffset) with
  | none =>
      rw [hdec] at h
      dsimp only at h
      cases h
  | some r =>
      obtain ⟨hlo, hhi⟩ := hok c.buf c.off (c.numRead.toNat + oldOffset) r hdec
      have hss := hnn c.buf c.off (c.numRead.toNat + oldOffset) r hdec
      rw [hdec] at h
      dsimp only at h
      set tw := (if r.sourceSize ≤ c.numRead + (oldOffset : Int) - (r.newOff : Int)
                 then r.sourceSize else c.numRead + (oldOffset : Int) - (r.newOff : Int)) with htw
      set hdr := addHeaderBytes c.stats ((r.newOff : Int) - (oldOffset : Int)) with hhdr
      set od1 := openDest cfg.doActualWrites r.offset hdr c.creates c.seeks with hod1
      set dw1 := destWrite od1.1 (addDataBytes od1.2.1 tw) c.writes with hdw1
      set fin1 := streamTail cfg.bufferSize r.sourceSize (r.sourceSize - tw).toNat
        ⟨c.sock, c.buf, dw1.1, dw1.2.1, tw, dw1.2.2⟩ with hfin1
      have hrd : (0 : Int) ≤ c.numRead + (oldOffset : Int) - (r.newOff : Int) := by
        have : (r.newOff : Int) ≤ (c.numRead.toNat : Int) + (oldOffset : Int) := by
          exact_mod_cast Nat.cast_le.mpr hhi
        omega
      have htw0 : (0 : Int) ≤ tw := by
        rw [htw]; split <;> omega
      have htwr : tw ≤ c.numRead + (oldOffset : Int) - (r.newOff : Int) := by
        rw [htw]; split <;> omega
      have hnb : (r.newOff : Int) + tw ≤ (cfg.bufferSize : Int) := by omega
      have hnb2 : (r.newOff : Int) + tw < 2 ^ 64 := by
        have : (cfg.bufferSize : Int) < 2 ^ 64 := by exact_mod_cast hbs
        omega
      have hi4 : intToSize ((r.newOff : Int) + tw) = ((r.newOff : Int) + tw).toNat :=
        intToSize_eq _ (by omega) hnb2
      by_cases hw : fin1.wres ≠ r.sourceSize
      · rw [if_pos hw] at h
        cases h
      · rw [if_neg hw] at h
        by_cases hr2 : c.numRead + (oldOffset : Int) - (r.newOff : Int) - tw < 0
        · rw [if_pos hr2] at h
          cases h
        · rw [if_neg hr2] at h
          by_cases hr3 : (0 : Int) < c.numRead + (oldOffset : Int) - (r.newOff : Int) - tw
          · rw [if_pos hr3] at h
            by_cases hr4 : c.numRead + (oldOffset : Int) - (r.newOff : Int) - tw <
                (cfg.kMaxHeader : Int) ∧
                cfg.bufferSize / 2 < intToSize ((r.newOff : Int) + tw)
            · rw [if_pos hr4] at h
              cases h
              dsimp only
              constructor
              · omega
              · omega
            · rw [if_neg hr4] at h
              cases h
              dsimp only
              rw [hi4]
              constructor
              · omega
              · omega
          · rw [if_neg hr3] at h
            cases h
            dsimp only
            constructor
            · omega
            · simp

theorem processCmd_cont_inv : ∀ (cfg : Cfg) (c : ConnState) (c' : ConnState),
    CodecOk cfg.decode → CodecNonneg cfg.decode → 0 < c.numRead →
    (c.off : Int) + c.numRead ≤ (cfg.bufferSize : Int) → cfg.bufferSize < 2 ^ 64 →
    processCmd cfg c = InnerOut.cont c' →
    0 ≤ c'.numRead ∧ c'.off + c'.numRead.toNat ≤ cfg.bufferSize := by
  intro cfg c c' hok hnn hnr hin hbs h
  unfold processCmd at h
  dsimp only at h
  by_cases h1 : bufGet c.buf c.off = EXIT_CMD
  · rw [if_pos h1] at h
    by_cases h2 : c.numRead ≠ 1
    · rw [if_pos h2] at h; cases h
    · rw [if_neg h2] at h; cases h
  · rw [if_neg h1] at h
    by_cases hD : bufGet c.buf c.off = DONE_CMD
    · rw [if_pos hD] at h
      by_cases h2 : c.numRead ≠ 2
      · rw [if_pos h2] at h; cases h
      · rw [if_neg h2] at h
        by_cases hj : cfg.isJoinable
        · rw [if_pos hj] at h; cases h
        · rw [if_neg hj] at h; cases h
    · rw [if_neg hD] at h
      by_cases hF : bufGet c.buf c.off ≠ FILE_CMD
      · rw [if_pos hF] at h; cases h
      · rw [if_neg hF] at h
        exact handleFile_cont_inv cfg { c with off := c.off + 2 } c.off c' hok hnn
          (by dsimp only; exact hnr) (by dsimp only; exact hin) hbs h

/-- C1 amended: the invariant that holds at the top of every inner-loop
iteration is 0 ≤ numRead together with off + numRead ≤ bufferSize (the
unconsumed window [off, off + numRead) lies inside the buffer) - it holds
in the initial state of every connection and is preserved by every
continuing step, provided decode advances the offset only within the valid
window and decoded sourceSize values are nonnegative.  The claimed
off ≤ numRead is not invariant (see the counterexample). -/
theorem c1_buffer_invariant_amended :
    (∀ (cfg : Cfg) (buf : List Nat) (sock : List SockEv) (stats : TransferStats)
      (cs : List Int) (sk : List Bool) (wr : List Bool),
      bufInv cfg (initConn buf sock stats cs sk wr)) ∧
    (∀ (cfg : Cfg) (c c' : ConnState),
      CodecOk cfg.decode → CodecNonneg cfg.decode → cfg.bufferSize < 2 ^ 64 →
      bufInv cfg c → innerStep cfg c = InnerOut.cont c' → bufInv cfg c') := by
  constructor
  · intro cfg buf sock stats cs sk wr
    exact ⟨le_refl _, by simp [initConn, bufInv]⟩
  · intro cfg c c' hok hnn hbs hinv h
    obtain ⟨hnr0, hoff⟩ := hinv
    unfold innerStep at h
    cases hr : readAtLeast c.sock (cfg.bufferSize - c.off) cfg.kMaxHeader c.numRead.toNat with
    | mk r p =>
      rw [hr] at h
      dsimp only at h
      by_cases hle : r ≤ 0
      · rw [if_pos hle] at h; cases h
      · rw [if_neg hle] at h
        have hmax : (readAtLeast c.sock (cfg.bufferSize - c.off) cfg.kMaxHeader
            c.numRead.toNat).1 ≤ ((cfg.bufferSize - c.off : Nat) : Int) :=
          rle_le_max c.sock (cfg.bufferSize - c.off) cfg.kMaxHeader c.numRead.toNat
            (by omega)
        rw [hr] at hmax
        dsimp only at hmax
        have hin2 : (c.off : Int) + r ≤ (cfg.bufferSize : Int) := by omega
        have := processCmd_cont_inv cfg
          { c with buf := writeAt c.buf (c.off + c.numRead.toNat) p.1,
                   numRead := r, sock := p.2 } c' hok hnn
          (by dsimp only; omega) (by dsimp only; exact hin2) hbs h
        exact this

/-- Witness for C1 on a concrete continuing step with the well-behaved
codec. -/
theorem c1_buffer_invariant_amended_witness :
    bufInv c1wcfg (initConn (List.replicate 8 0) [SockEv.chunk [FILE_CMD, 0]]
      statsInit [] [] []) ∧
    bufInv c1wcfg c1wnext :=
  ⟨c1_buffer_invariant_amended.1 c1wcfg (List.replicate 8 0)
      [SockEv.chunk [FILE_CMD, 0]] statsInit [] [] [],
   c1_buffer_invariant_amended.2 c1wcfg c1wst c1wnext zeroCodec_ok zeroCodec_nonneg
     (by decide) ⟨by decide, by decide⟩ (by decide)⟩

end Wdt
